import Mathlib

/-!
# SourceDemoRender: address-resolution core of `Application.cpp`

A shallow embedding of the byte pattern engine (`Memory::DataCompare`,
`Memory::FindPattern`, `SDR::GetPatternFromString`), of the game
configuration store (`Config::ResolveInherit`, `Config::CallHandlers`,
`Config::SetupGame`), of the typed key-value registry (`SetKeyValue`,
`GetKeyValue`), of the address resolver (`SDR::GetAddressFromJsonFlex`) and of
the startup list (`SDR::CallPluginStartupFunctions`), followed by theorems
about them.

Conventions of the embedding:

* process memory is a function `mem : Nat → Nat` from addresses to bytes; a
  buffer is the address range `[start, start + searchlength)`;
* `size_t` is `Nat` reduced modulo `2 ^ w`, the word width `w` being a parameter;
* a C string is the `List Char` of the ASCII characters before its terminator;
* a function whose C++ body may loop forever or leave its input returns an
  `Option`, `none` standing for "no defined result";
* callbacks (module handlers, startup functions) are pure functions, and the
  calls made are recorded in a trace.
-/

namespace SDR

/-! ## Data model -/

namespace BytePattern

/-- Entry of a byte pattern, `SDR::BytePattern::Entry`: `Unknown` marks a
wildcard, `Value` is the byte a fixed entry must equal. -/
structure Entry where
  Unknown : Bool
  Value : Nat
  deriving DecidableEq, Repr

end BytePattern

/-- Compiled pattern, `SDR::BytePattern`: the vector `Bytes` of entries. -/
structure BytePattern where
  Bytes : List BytePattern.Entry
  deriving DecidableEq, Repr

/-! ## Byte pattern engine -/

namespace Memory

/-- The `for` loop of `DataCompare`. `none` is the early `return false`;
`some index` is the value of the counter `index` when the loop runs to its end.
`data` is the address the `data` pointer holds; the byte there is read only for
a fixed entry, as `&&` short-circuits. -/
def DataCompareLoop (mem : Nat → Nat) : List BytePattern.Entry → Nat → Nat → Option Nat
  | [], _, index => some index
  | byte :: pattern, data, index =>
    if !byte.Unknown && mem data != byte.Value then none
    else DataCompareLoop mem pattern (data + 1) (index + 1)

/-- Source function `Memory::DataCompare(data, pattern, patternlength)`: the loop visits the
first `patternlength` entries and the function returns `index == patternlength`.
(`index` is an `int`; it counts the iterations and cannot overflow for a pattern
of fewer than `2 ^ 31` entries.) -/
def DataCompare (mem : Nat → Nat) (data : Nat) (pattern : List BytePattern.Entry)
    (patternlength : Nat) : Bool :=
  match DataCompareLoop mem (pattern.take patternlength) data 0 with
  | none => false
  | some index => index == patternlength

/-- Subtraction of two `size_t` values, modulo `2 ^ w`. -/
def sizeSub (w a b : Nat) : Nat :=
  (a % 2 ^ w + 2 ^ w - b % 2 ^ w) % 2 ^ w

/-- The `for (size_t i = 0; i <= bound; ++i)` loop of `FindPattern`, `bound`
being `searchlength - length`. The result `some (some addr)` is `return addr`,
`some none` is `return nullptr`, and `none` means the fuel ran out. -/
def FindPatternLoop (w : Nat) (mem : Nat → Nat) (start bound : Nat) (pattern : BytePattern) :
    Nat → Nat → Option (Option Nat)
  | 0, _ => none
  | fuel + 1, i =>
    if i ≤ bound then
      let addr := start + i
      if DataCompare mem addr pattern.Bytes pattern.Bytes.length then some (some addr)
      else FindPatternLoop w mem start bound pattern fuel ((i + 1) % 2 ^ w)
    else some none

/-- Source function `Memory::FindPattern(start, searchlength, pattern)`. The loop state is the
counter `i < 2 ^ w` alone, so a run of more than `2 ^ w` iterations has
revisited a state and never ends: the fuel `2 ^ w + 1` is exact, and `none`
means that the C++ loop does not terminate. -/
def FindPattern (w : Nat) (mem : Nat → Nat) (start searchlength : Nat) (pattern : BytePattern) :
    Option (Option Nat) :=
  let length := pattern.Bytes.length
  FindPatternLoop w mem start (sizeSub w searchlength length) pattern (2 ^ w + 1) 0

end Memory

/-- Library predicate `std::isspace` in the "C" locale: space, `\t`, `\n`, `\v`, `\f`, `\r`. -/
def isspace (c : Char) : Bool :=
  c.toNat == 32 || (9 ≤ c.toNat && c.toNat ≤ 13)

/-- Value of a hexadecimal digit, `none` for any other character. -/
def hexDigitValue (c : Char) : Option Nat :=
  if 48 ≤ c.toNat ∧ c.toNat ≤ 57 then some (c.toNat - 48)
  else if 65 ≤ c.toNat ∧ c.toNat ≤ 70 then some (c.toNat - 55)
  else if 97 ≤ c.toNat ∧ c.toNat ≤ 102 then some (c.toNat - 87)
  else none

/-- Library predicate `std::isxdigit`. -/
def isxdigit (c : Char) : Bool :=
  (hexDigitValue c).isSome

/-- Largest `long`; `long` has 32 bits on the Windows targets of the program. -/
def LONG_MAX : Nat := 2147483647

/-- Digit loop of `strtol`: consumes hexadecimal digits as long as there are any. -/
def strtolDigits : List Char → Nat → Nat
  | [], acc => acc
  | c :: cs, acc =>
    match hexDigitValue c with
    | some d => strtolDigits cs (acc * 16 + d)
    | none => acc

/-- Library call `std::strtol(input, nullptr, 16)` of the C library, for an `input` that
starts with a hexadecimal digit (the only way `GetPatternFromString` calls it):
an optional `0x`/`0X` prefix, then the longest run of hexadecimal digits, the
value clamped to `LONG_MAX`. -/
def strtol16 (input : List Char) : Nat :=
  let body :=
    match input with
    | z :: x :: rest => if z.toNat == 48 && (x.toNat == 120 || x.toNat == 88) then rest else input
    | _ => input
  min (strtolDigits body 0) LONG_MAX

/-- The entry one iteration of `GetPatternFromString` builds when `input` points
at the character `d` followed by `rest`: a fixed entry holding the value of `strtol`
narrowed to `uint8_t` when `d` is a hexadecimal digit, a wildcard otherwise
(whose `Value`, never read, is left unset in the source and is `0` here). -/
def patternEntryAt (d : Char) (rest : List Char) : BytePattern.Entry :=
  if isxdigit d then ⟨false, strtol16 (d :: rest) % 256⟩ else ⟨true, 0⟩

/-- The `while (*input)` loop of `GetPatternFromString`, `ret` being the
entries emitted so far. One iteration skips one whitespace character if there
is one, emits an entry and advances `input` by two. `none`: `input += 2` moved
the pointer beyond the terminator, and the next `*input` reads outside the
string. -/
def GetPatternFromStringLoop : List Char → List BytePattern.Entry → Option (List BytePattern.Entry)
  | [], ret => some ret
  | c :: rest, ret =>
    if isspace c then
      match rest with
      | [] => none
      | [_] => none
      | d :: e :: rest2 => GetPatternFromStringLoop rest2 (ret ++ [patternEntryAt d (e :: rest2)])
    else
      match rest with
      | [] => none
      | e :: rest2 => GetPatternFromStringLoop rest2 (ret ++ [patternEntryAt c (e :: rest2)])

/-- Source function `SDR::GetPatternFromString(input)`. -/
def GetPatternFromString (input : List Char) : Option BytePattern :=
  (GetPatternFromStringLoop input []).map BytePattern.mk

/-- A JSON value, `rapidjson::Value`. -/
inductive ValueType where
  | null
  | bool (b : Bool)
  | number (n : Int)
  | string (s : String)
  | array (items : List ValueType)
  | object (members : List (String × ValueType))

namespace ValueType

/-- Test `Value::IsString()`. -/
def IsString : ValueType → Bool
  | string _ => true
  | _ => false

/-- Accessor `Value::GetString()`, defined for a string value. -/
def GetString : ValueType → String
  | string s => s
  | _ => ""

end ValueType

namespace Config

/-- Enumeration `Config::Status`, the failure reasons thrown during setup. -/
inductive Status where
  | CouldNotFindConfig
  | CouldNotFindGame
  | InheritTargetWrong
  | HandlerNotFound
  | CouldNotCreateModule
  deriving DecidableEq, Repr

/-- Index of a status, `static_cast<int>(status)`. -/
def Status.toNat : Status → Nat
  | CouldNotFindConfig => 0
  | CouldNotFindGame => 1
  | InheritTargetWrong => 2
  | HandlerNotFound => 3
  | CouldNotCreateModule => 4

/-- Table `Config::StatusNames`. -/
def StatusNames : List String :=
  [ "Could not find config",
    "Could not find game",
    "Inherit target not found",
    "Module handler not found",
    "Could not create module" ]

/-- One element of `GameData::Properties`: a name and its JSON value. -/
abbrev Property := String × ValueType

/-- Structure `Config::GameData`: a configuration title and its ordered properties. -/
structure GameData where
  Name : String
  Properties : List Property

/-- The scan `for (auto it = begin; it != end; ++it)` of `ResolveInherit` for
the first property named `Inherit`: the properties before it, its value and the
properties after it; `none` when no property has that name. -/
def findInherit : List Property → Option (List Property × ValueType × List Property)
  | [] => none
  | it :: rest =>
    if it.1 == "Inherit" then some ([], it.2, rest)
    else
      match findInherit rest with
      | none => none
      | some (before, value, after) => some (it :: before, value, after)

/-- The loop `for (const auto& sourceprop : game.Properties)` of
`ResolveInherit`, `dest` being `targetgame->Properties`: a source property is
appended unless a property of `dest`, as it stands then, has its name. -/
def mergeProperties : List Property → List Property → List Property
  | [], dest => dest
  | sourceprop :: source, dest =>
    let shouldadd := !(dest.any fun destprop => sourceprop.1 == destprop.1)
    mergeProperties source (if shouldadd then dest ++ [sourceprop] else dest)

/-- The loop `for (const auto& game : Configs)` of `ResolveInherit`. The result
is `targetgame->Properties` after the loop, or the thrown status. The test
`if (!foundgame)` stands inside the loop body, after the `if` that `break`s on
a match. -/
def inheritWalk (fromName : String) (dest : List Property) :
    List GameData → Except Status (List Property)
  | [] => .ok dest
  | game :: rest =>
    let foundgame := game.Name == fromName
    if foundgame then .ok (mergeProperties game.Properties dest)
    else if !foundgame then .error Status.InheritTargetWrong
    else inheritWalk fromName dest rest

/-- State in which `ResolveInherit` ends: the status it threw, if any, and the
global `Configs`. -/
structure ResolveResult where
  thrown : Option Status
  Configs : List GameData

/-- Source function `Config::ResolveInherit(targetgame, alloc)`. `targetgame`
points into the global `Configs` and is the index `target`; the recursion is
bounded by `fuel` and `none` means it ran out (or that `target` is no index of
`Configs`). The walk reads `Configs` after the `erase`; when the candidate is
the target itself every source property is found in `dest`, nothing is
appended, and the vector is not changed while it is iterated. -/
def ResolveInherit : Nat → List GameData → Nat → Option ResolveResult
  | 0, _, _ => none
  | fuel + 1, Configs, target =>
    match Configs[target]? with
    | none => none
    | some targetgame =>
      match findInherit targetgame.Properties with
      | none => some ⟨none, Configs⟩
      | some (before, value, after) =>
        if !value.IsString then some ⟨none, Configs⟩
        else
          let fromName := value.GetString
          let Configs1 := Configs.set target { targetgame with Properties := before ++ after }
          match inheritWalk fromName (before ++ after) Configs1 with
          | .error status => some ⟨some status, Configs1⟩
          | .ok properties =>
            ResolveInherit fuel
              (Configs1.set target { targetgame with Properties := properties }) target

/-- Structure `SDR::ModuleHandlerData`: a property name and the activation callback. -/
structure ModuleHandlerData where
  Name : String
  Function : String → ValueType → Bool

/-- State in which `CallHandlers` ends: the status it threw, if any, and the
handler invocations made, in order, each with its two arguments. -/
structure CallResult where
  thrown : Option Status
  calls : List (String × ValueType)

/-- The loop `for (auto& prop : game->Properties)` of `CallHandlers`. -/
def CallHandlersLoop (ModuleHandlers : List ModuleHandlerData) :
    List Property → List (String × ValueType) → CallResult
  | [], calls => ⟨none, calls⟩
  | prop :: props, calls =>
    match ModuleHandlers.find? fun handler => prop.1 == handler.Name with
    | none => CallHandlersLoop ModuleHandlers props calls
    | some handler =>
      let res := handler.Function handler.Name prop.2
      if !res then ⟨some Status.CouldNotCreateModule, calls ++ [(handler.Name, prop.2)]⟩
      else CallHandlersLoop ModuleHandlers props (calls ++ [(handler.Name, prop.2)])

/-- Source function `Config::CallHandlers(game)`. -/
def CallHandlers (ModuleHandlers : List ModuleHandlerData) (game : GameData) : CallResult :=
  CallHandlersLoop ModuleHandlers game.Properties []

/-- The parsed configuration file: titles in document order, each with its
members in document order. -/
abbrev Document := List (String × List Property)

/-- The `MemberLoop` of `SetupGame`: one `GameData` is appended to `Configs`
for each title of the document. -/
def loadConfigs (Configs : List GameData) (document : Document) : List GameData :=
  Configs ++ document.map fun gameit => ⟨gameit.1, gameit.2⟩

/-- The loop of `SetupGame` that sets `currentgame`: the index of the first
entry of `Configs` named `gamename`. -/
def findGame (gamename : String) : List GameData → Option Nat
  | [] => none
  | game :: rest =>
    if game.Name == gamename then some 0 else (findGame gamename rest).map (· + 1)

/-- State in which `SetupGame` ends. -/
structure SetupResult where
  thrown : Option Status
  Configs : List GameData
  ModuleHandlers : List ModuleHandlerData
  calls : List (String × ValueType)

/-- Source function `Config::SetupGame(gamepath, gamename)`. `file` is the parsed content of
`GameConfig.json`, `none` when the file cannot be opened; `Configs` and
`ModuleHandlers` are the globals on entry. -/
def SetupGame (fuel : Nat) (file : Option Document) (gamename : String)
    (Configs : List GameData) (ModuleHandlers : List ModuleHandlerData) : Option SetupResult :=
  match file with
  | none => some ⟨some Status.CouldNotFindConfig, Configs, ModuleHandlers, []⟩
  | some document =>
    let Configs1 := loadConfigs Configs document
    match findGame gamename Configs1 with
    | none => some ⟨some Status.CouldNotFindGame, Configs1, ModuleHandlers, []⟩
    | some currentgame =>
      match ResolveInherit fuel Configs1 currentgame with
      | none => none
      | some ⟨some status, Configs2⟩ => some ⟨some status, Configs2, ModuleHandlers, []⟩
      | some ⟨none, Configs2⟩ =>
        match Configs2[currentgame]? with
        | none => none
        | some game =>
          match CallHandlers ModuleHandlers game with
          | ⟨some status, calls⟩ => some ⟨some status, Configs2, ModuleHandlers, calls⟩
          | ⟨none, calls⟩ => some ⟨none, Configs2, [], calls⟩

end Config

namespace ValueType

/-- Test `Value::IsNumber()`. -/
def IsNumber : ValueType → Bool
  | number _ => true
  | _ => false

/-- Accessor `Value::GetInt()`, defined for a number. -/
def GetInt : ValueType → Int
  | number n => n
  | _ => 0

end ValueType

/-- Lookup `Value::FindMember(name)` among the members of a JSON object: the
value of the first member named `name`, `none` for `MemberEnd()`. -/
def FindMember (members : List (String × ValueType)) (name : String) : Option ValueType :=
  (members.find? fun member => member.1 == name).map fun member => member.2

/-- Test `Value::HasMember(name)` on the members of a JSON object. -/
def HasMember (members : List (String × ValueType)) (name : String) : Bool :=
  (FindMember members name).isSome

/-! ## Typed key-value registry -/

namespace Config

namespace Registry

/-- Type tags `DataType::TypeIndex::Type`. -/
inductive TypeIndex where
  | Invalid
  | UInt32
  deriving DecidableEq, Repr

/-- Structure `DataType::TypeReturn<uint32_t>`: the tag and the address of the
active value; `Address` holds the value pointed to, `none` for `nullptr`. -/
structure TypeReturn where
  Type_ : TypeIndex
  Address : Option Nat
  deriving DecidableEq, Repr

/-- Conversion `TypeReturn::operator bool`: `Address && Type != Invalid`. -/
def TypeReturn.toBool (self : TypeReturn) : Bool :=
  self.Address.isSome && self.Type_ != TypeIndex.Invalid

/-- Accessor `TypeReturn::Get()`: `*Address`. -/
def TypeReturn.Get (self : TypeReturn) : Nat :=
  self.Address.getD 0

/-- Structure `Config::Registry::DataType`: a named entry with its type tag and
the `uint32_t` member of its union (a number below `2 ^ 32`). -/
structure DataType where
  Name : String
  TypeNumber : TypeIndex
  Value_U32 : Nat
  deriving DecidableEq, Repr

/-- Method `DataType::SetValue<T>(value)`; `isUInt32` is
`std::is_same<T, uint32_t>::value`. For another `T` nothing is stored. -/
def DataType.SetValue (self : DataType) (isUInt32 : Bool) (value : Nat) : DataType :=
  if isUInt32 then { self with TypeNumber := TypeIndex.UInt32, Value_U32 := value } else self

/-- Method `DataType::GetActiveValue<uint32_t>()`. -/
def DataType.GetActiveValue (self : DataType) : TypeReturn :=
  match self.TypeNumber with
  | TypeIndex.UInt32 => ⟨self.TypeNumber, some self.Value_U32⟩
  | TypeIndex.Invalid => ⟨TypeIndex.Invalid, none⟩

/-- Source function `Config::Registry::InsertKeyValue<T>(name, value)` on the
global `KeyValues`. The new entry starts with the tag `Invalid`; its union is
unset in the source and `0` here. -/
def InsertKeyValue (KeyValues : List DataType) (isUInt32 : Bool) (name : String) (value : Nat) :
    List DataType :=
  KeyValues ++ [(DataType.mk name TypeIndex.Invalid 0).SetValue isUInt32 value]

end Registry

end Config

namespace ModuleShared

namespace Registry

open Config.Registry

/-- Source function `SDR::ModuleShared::Registry::SetKeyValue(name, value)`. -/
def SetKeyValue (KeyValues : List DataType) (name : String) (value : Nat) : List DataType :=
  InsertKeyValue KeyValues true name value

/-- State in which `GetKeyValue` ends: the returned `bool`, the content of
`*value` (`none` when `value` is `nullptr`) and the global `KeyValues`. -/
structure GetKeyValueResult where
  found : Bool
  value : Option Nat
  KeyValues : List DataType
  deriving DecidableEq, Repr

/-- The loop `for (auto& keyvalue : Config::Registry::KeyValues)` of
`GetKeyValue`: the returned `bool` and the content of `*value`. -/
def GetKeyValueLoop (name : String) (value : Option Nat) : List DataType → Bool × Option Nat
  | [] => (false, value)
  | keyvalue :: rest =>
    if keyvalue.Name == name then
      let active := keyvalue.GetActiveValue
      (true, if active.toBool && value.isSome then some active.Get else value)
    else GetKeyValueLoop name value rest

/-- Source function `SDR::ModuleShared::Registry::GetKeyValue(name, value)`;
`value` is the content of the `uint32_t` the pointer addresses on entry, `none`
for `nullptr`. -/
def GetKeyValue (KeyValues : List DataType) (name : String) (value : Option Nat) :
    GetKeyValueResult :=
  ⟨(GetKeyValueLoop name value KeyValues).1, (GetKeyValueLoop name value KeyValues).2, KeyValues⟩

end Registry

end ModuleShared

/-! ## Address resolver -/

/-- What the resolver reads from its surroundings: the key-value registry, the
pointer-sized load `load` from process memory, the indeterminate initial
content `ptrnum` of the local of that name in `GetVirtualAddressFromJson`, and
the two finder classes `AddressFinder(module, pattern, offset).Get()` and
`RelativeJumpFunctionFinder(address).Get()`, which are declared outside the
source file and taken as parameters. An address is `none` for `nullptr`. -/
structure Environment where
  KeyValues : List Config.Registry.DataType
  load : Nat → Nat
  ptrnum : Nat
  AddressFinder : String → BytePattern → Int → Option Nat
  RelativeJumpFunctionFinder : Option Nat → Option Nat

/-- A number read as `void*`: `0` is `nullptr`. -/
def pointerOfNat (n : Nat) : Option Nat :=
  if n = 0 then none else some n

/-- Source function `SDR::GetVirtualAddressFromIndex(ptr, index)` for 32-bit
pointers: `vtable = *((void***)ptr)`, then `vtable[index]`. -/
def GetVirtualAddressFromIndex (load : Nat → Nat) (ptr : Nat) (index : Int) : Option Nat :=
  let vtable := load ptr
  pointerOfNat (load (((vtable : Int) + 4 * index) % 2 ^ 32).toNat)

/-- Source function `SDR::GetVirtualIndexFromJson(value)`: `value["VTIndex"].GetInt()`,
`none` when the member is missing or no number (an assertion of the JSON
library fails). -/
def GetVirtualIndexFromJson (members : List (String × ValueType)) : Option Int :=
  match FindMember members "VTIndex" with
  | some (ValueType.number n) => some n
  | _ => none

/-- Source function `SDR::GetVirtualAddressFromJson(ptr, value)`. -/
def GetVirtualAddressFromJsonPtr (load : Nat → Nat) (ptr : Nat)
    (members : List (String × ValueType)) : Option (Option Nat) :=
  (GetVirtualIndexFromJson members).map fun index => GetVirtualAddressFromIndex load ptr index

/-- Source function `SDR::GetVirtualAddressFromJson(value)`. The outer `none`
means that an assertion of the JSON library fails (`VTPtrName` or `VTIndex`
missing or of the wrong kind). -/
def GetVirtualAddressFromJson (env : Environment) (members : List (String × ValueType)) :
    Option (Option Nat) :=
  match FindMember members "VTPtrName" with
  | some (ValueType.string instanceName) =>
    let res := ModuleShared.Registry.GetKeyValue env.KeyValues instanceName (some env.ptrnum)
    if !res.found then some none
    else
      match res.value with
      | some ptrnum => GetVirtualAddressFromJsonPtr env.load ptrnum members
      | none => none
  | _ => none

/-- Source function `SDR::GetAddressFromJsonPattern(value)`. The outer `none`
means that an assertion of the JSON library fails (`Module` or `Pattern` no
string) or that the pattern text is left by `GetPatternFromString`. -/
def GetAddressFromJsonPattern (env : Environment) (members : List (String × ValueType)) :
    Option (Option Nat) :=
  match FindMember members "Module", FindMember members "Pattern" with
  | some (ValueType.string moduleName), some (ValueType.string patternstr) =>
    match FindMember members "Offset" with
    | some offsetValue =>
      if !offsetValue.IsNumber then some none
      else
        let isjump := HasMember members "IsRelativeJump"
        (GetPatternFromString patternstr.toList).map fun pattern =>
          let address := env.AddressFinder moduleName pattern offsetValue.GetInt
          if isjump then env.RelativeJumpFunctionFinder address else address
    | none =>
      let isjump := HasMember members "IsRelativeJump"
      (GetPatternFromString patternstr.toList).map fun pattern =>
        let address := env.AddressFinder moduleName pattern 0
        if isjump then env.RelativeJumpFunctionFinder address else address
  | _, _ => none

/-- Source function `SDR::GetAddressFromJsonFlex(value)`; a `value` that is no
object fails the assertion of `HasMember`. -/
def GetAddressFromJsonFlex (env : Environment) (value : ValueType) : Option (Option Nat) :=
  match value with
  | ValueType.object members =>
    if HasMember members "Pattern" then GetAddressFromJsonPattern env members
    else if HasMember members "VTIndex" then
      if HasMember members "VTPtrName" then GetVirtualAddressFromJson env members
      else some none
    else some none
  | _ => none

/-! ## Startup registry -/

/-- Structure `SDR::StartupFuncData`: a name and the startup callback, whose
result tells whether it succeeded. -/
structure StartupFuncData where
  Name : String
  Function : Unit → Bool

/-- Source function `SDR::AddPluginStartupFunction(data)` on the list
`MainApplication.StartupFunctions`. -/
def AddPluginStartupFunction (StartupFunctions : List StartupFuncData) (data : StartupFuncData) :
    List StartupFuncData :=
  StartupFunctions ++ [data]

/-- State in which `CallPluginStartupFunctions` ends: the name it threw, if
any, the list `MainApplication.StartupFunctions`, and the names of the entries
whose function was invoked, in order. -/
structure StartupResult where
  thrown : Option String
  StartupFunctions : List StartupFuncData
  calls : List String

/-- The loop `for (auto entry : MainApplication.StartupFunctions)` of
`CallPluginStartupFunctions`. -/
def CallPluginStartupFunctionsLoop : List StartupFuncData → List String → Option String × List String
  | [], calls => (none, calls)
  | entry :: rest, calls =>
    let res := entry.Function ()
    if !res then (some entry.Name, calls ++ [entry.Name])
    else CallPluginStartupFunctionsLoop rest (calls ++ [entry.Name])

/-- Source function `SDR::CallPluginStartupFunctions()`. -/
def CallPluginStartupFunctions (StartupFunctions : List StartupFuncData) : StartupResult :=
  if StartupFunctions.isEmpty then ⟨none, StartupFunctions, []⟩
  else
    match CallPluginStartupFunctionsLoop StartupFunctions [] with
    | (some name, calls) => ⟨some name, StartupFunctions, calls⟩
    | (none, calls) => ⟨none, [], calls⟩

/-! ## Specification vocabulary -/

/-- The pattern matches the bytes at address `addr`: every entry that is no
wildcard equals the byte at its position. -/
def MatchesAt (mem : Nat → Nat) (pattern : List BytePattern.Entry) (addr : Nat) : Prop :=
  ∀ j (h : j < pattern.length), pattern[j].Unknown = false → mem (addr + j) = pattern[j].Value

instance (mem : Nat → Nat) (pattern : List BytePattern.Entry) (addr : Nat) :
    Decidable (MatchesAt mem pattern addr) := by
  unfold MatchesAt
  infer_instance

/-- The byte sequence `s` lies in memory at offset `k` from `start`. -/
def EmbeddedAt (mem : Nat → Nat) (start : Nat) (s : List Nat) (k : Nat) : Prop :=
  ∀ j (h : j < s.length), mem (start + k + j) = s[j]

instance (mem : Nat → Nat) (start : Nat) (s : List Nat) (k : Nat) :
    Decidable (EmbeddedAt mem start s k) := by
  unfold EmbeddedAt
  infer_instance

/-- A pair of two hexadecimal digits. -/
def isHexPair (p : Char × Char) : Bool := isxdigit p.1 && isxdigit p.2

/-- A wildcard pair such as `??`: two characters of the text, the first neither
a hexadecimal digit nor whitespace. -/
def isWildcardPair (p : Char × Char) : Bool :=
  !isxdigit p.1 && !isspace p.1 && p.1.toNat != 0 && p.2.toNat != 0

/-- The entry a pair stands for: a fixed entry with the byte the two digits
spell for a hexadecimal pair, a wildcard for any other pair. -/
def pairEntry (p : Char × Char) : BytePattern.Entry :=
  if isHexPair p then
    ⟨false, 16 * (hexDigitValue p.1).getD 0 + (hexDigitValue p.2).getD 0⟩
  else ⟨true, 0⟩

/-- Text of a run of pairs, each preceded by its separator. -/
def spacedPairsText : List (List Char × (Char × Char)) → List Char
  | [] => []
  | (ws, p) :: rest => ws ++ p.1 :: p.2 :: spacedPairsText rest

/-- Pattern text of a non-empty sequence of pairs: the first pair, then every
further pair preceded by the separator that stands between it and the pair
before. -/
def pairsText (first : Char × Char) (rest : List (List Char × (Char × Char))) : List Char :=
  first.1 :: first.2 :: spacedPairsText rest

/-- Pattern text of a sequence of pairs separated by one space each. -/
def spacedText : List (Char × Char) → List Char
  | [] => []
  | p :: ps => pairsText p (ps.map fun q => ([Char.ofNat 32], q))

/-- Upper-case hexadecimal digit of a number below 16. -/
def hexChar (n : Nat) : Char :=
  if n < 10 then Char.ofNat (48 + n) else Char.ofNat (55 + n)

/-- The two hexadecimal digits of a byte. -/
def byteHexPair (b : Nat) : Char × Char :=
  (hexChar (b / 16), hexChar (b % 16))

/-- The wildcard pair `??`. -/
def wildcardPair : Char × Char := (Char.ofNat 63, Char.ofNat 63)

/-- Exact hexadecimal representation of a byte sequence: two digits per byte,
bytes separated by one space. -/
def hexText (s : List Nat) : List Char :=
  spacedText (s.map byteHexPair)

/-- Fixed pattern entry for the byte `b`. -/
def fixedEntry (b : Nat) : BytePattern.Entry := ⟨false, b⟩

namespace Config

/-- Names of a property list, in order. -/
def propertyNames (props : List Property) : List String :=
  props.map fun p => p.1

/-- Properties of `source`, in order, whose name is neither in `seen` nor the
name of an earlier property of `source`: one property per new name, the first. -/
def firstSeen : List Property → List String → List Property
  | [], _ => []
  | p :: ps, seen => if p.1 ∈ seen then firstSeen ps seen else p :: firstSeen ps (p.1 :: seen)

/-- Merge as a plain filter: the properties of the child followed by every property
of the parent whose name is not a name of the child. -/
def staticMerge (child parent : List Property) : List Property :=
  child ++ parent.filter fun p => !(propertyNames child).contains p.1

end Config

namespace Config

/-- The handler invocations dispatch can make for a property list, in order:
for each property that has a registered handler of its name, the first such
handler, called with its own name and the value of the property, and the result
of that call. A property without handler contributes nothing. -/
def dispatchCandidates (ModuleHandlers : List ModuleHandlerData) (props : List Property) :
    List (String × ValueType × Bool) :=
  props.filterMap fun prop =>
    (ModuleHandlers.find? fun handler => prop.1 == handler.Name).map fun handler =>
      (handler.Name, prop.2, handler.Function handler.Name prop.2)

/-- Title `X` refers to title `Y`: an entry named `X` has a property named
`Inherit` whose value is the string `Y`. -/
def InheritRef (Configs : List GameData) (X Y : String) : Prop :=
  ∃ game ∈ Configs, game.Name = X ∧
    ∃ p ∈ game.Properties, p.1 = "Inherit" ∧ p.2 = ValueType.string Y

/-- Following `Inherit` references from a title never leads back to it. -/
def Acyclic (Configs : List GameData) : Prop :=
  ∀ X, ¬ Relation.TransGen (InheritRef Configs) X X

end Config

namespace Config

/-- Number of properties named `Inherit` in a property list. -/
def countInherit (props : List Property) : Nat :=
  (propertyNames props).count "Inherit"

/-- The recursion of `ResolveInherit` on `target` ends: some fuel yields a
result, and the result is a normal return or the status `InheritTargetWrong`. -/
def ResolveTerminates (Configs : List GameData) (target : Nat) : Prop :=
  ∃ fuel r, ResolveInherit fuel Configs target = some r ∧
    (r.thrown = none ∨ r.thrown = some Status.InheritTargetWrong)

end Config

/-- The registry after the calls `SetKeyValue(name, value)` of `ops`, in order,
starting from the empty registry of process start. -/
def registryOf (ops : List (String × Nat)) : List Config.Registry.DataType :=
  ops.foldl (fun KeyValues op => ModuleShared.Registry.SetKeyValue KeyValues op.1 op.2) []

/-- The startup list after the calls `AddPluginStartupFunction(data)` of
`entries`, in order, starting from the empty list of process start. -/
def startupListOf (entries : List StartupFuncData) : List StartupFuncData :=
  entries.foldl AddPluginStartupFunction []

/-! ## Example configurations -/

namespace Config

/-- Parent title `P` with the properties `X` and `Y`. -/
def exampleParent : GameData :=
  ⟨"P", [("X", ValueType.number 3), ("Y", ValueType.number 2)]⟩

/-- Child title `T` that defines `X`, inherits `P` and defines `Z`. -/
def exampleChild : GameData :=
  ⟨"T", [("X", ValueType.number 1), ("Inherit", ValueType.string "P"),
    ("Z", ValueType.number 5)]⟩

/-- Title `A` of a chain: inherits `B`. -/
def chainA : GameData := ⟨"A", [("Inherit", ValueType.string "B"), ("X", ValueType.number 1)]⟩

/-- Title `B` of a chain: inherits `C`. -/
def chainB : GameData := ⟨"B", [("Inherit", ValueType.string "C"), ("Y", ValueType.number 2)]⟩

/-- Title `C` of a chain: no `Inherit` property. -/
def chainC : GameData := ⟨"C", [("Z", ValueType.number 3)]⟩

/-- Title `N` whose `Inherit` property is the number 5. -/
def exampleNonString : GameData :=
  ⟨"N", [("X", ValueType.number 1), ("Inherit", ValueType.number 5),
    ("Y", ValueType.number 2)]⟩

/-- Title `D` that holds the name `X` twice and no `Inherit` property. -/
def exampleDuplicate : GameData :=
  ⟨"D", [("X", ValueType.number 1), ("X", ValueType.number 2)]⟩

/-- State of `exampleChild` once `exampleParent` is merged into it. -/
def exampleResolved : GameData :=
  ⟨"T", [("X", ValueType.number 1), ("Z", ValueType.number 5), ("Y", ValueType.number 2)]⟩

/-- Title `M` whose `Inherit` names a title that is not loaded. -/
def exampleOrphan : GameData :=
  ⟨"M", [("Inherit", ValueType.string "Nowhere"), ("X", ValueType.number 1)]⟩

end Config

/-! ## Example startup entries -/

/-- Startup entry named `name` whose function succeeds. -/
def startupOk (name : String) : StartupFuncData := ⟨name, fun _ => true⟩

/-- Startup entry named `name` whose function reports failure. -/
def startupFail (name : String) : StartupFuncData := ⟨name, fun _ => false⟩

/-! ## The byte pattern engine: lemmas -/

open Memory

theorem MatchesAt_nil (mem : Nat → Nat) (addr : Nat) : MatchesAt mem [] addr := by
  intro j h
  simp at h

theorem MatchesAt_cons (mem : Nat → Nat) (b : BytePattern.Entry) (p : List BytePattern.Entry)
    (addr : Nat) :
    MatchesAt mem (b :: p) addr ↔
      (b.Unknown = false → mem addr = b.Value) ∧ MatchesAt mem p (addr + 1) := by
  constructor
  · intro h
    refine ⟨fun hb => ?_, fun j hj hu => ?_⟩
    · have := h 0 (by simp) (by simpa using hb)
      simpa using this
    · have := h (j + 1) (by simpa using hj) (by simpa using hu)
      simpa [Nat.add_assoc, Nat.add_comm 1 j] using this
  · rintro ⟨h0, hrest⟩ j hj hu
    cases j with
    | zero => simpa using h0 (by simpa using hu)
    | succ j =>
      have := hrest j (by simpa using hj) (by simpa using hu)
      simpa [Nat.add_assoc, Nat.add_comm 1 j] using this

theorem DataCompareLoop_eq (mem : Nat → Nat) (pattern : List BytePattern.Entry) :
    ∀ data index, DataCompareLoop mem pattern data index =
      if MatchesAt mem pattern data then some (index + pattern.length) else none := by
  induction pattern with
  | nil => intro data index; simp [DataCompareLoop, MatchesAt_nil]
  | cons b p ih =>
    intro data index
    rw [DataCompareLoop, ih]
    simp only [MatchesAt_cons]
    by_cases hu : b.Unknown = true
    · simp [hu, Nat.add_assoc, Nat.add_comm 1]
    · have hu2 : b.Unknown = false := by simpa using hu
      by_cases hv : mem data = b.Value
      · simp [hu2, hv, Nat.add_assoc, Nat.add_comm 1]
      · simp [hu2, hv]

theorem DataCompare_iff (mem : Nat → Nat) (data : Nat) (pattern : List BytePattern.Entry) :
    DataCompare mem data pattern pattern.length = true ↔ MatchesAt mem pattern data := by
  unfold DataCompare
  rw [List.take_length, DataCompareLoop_eq]
  by_cases h : MatchesAt mem pattern data <;> simp [h]

theorem sizeSub_of_le (w a b : Nat) (hba : b ≤ a) (ha : a < 2 ^ w) : sizeSub w a b = a - b := by
  unfold sizeSub
  have hb : b % 2 ^ w = b := Nat.mod_eq_of_lt (by omega)
  have h : a + 2 ^ w - b = (a - b) + 2 ^ w := by omega
  rw [Nat.mod_eq_of_lt ha, hb, h, Nat.add_mod_right, Nat.mod_eq_of_lt (by omega)]

theorem FindPatternLoop_spec (w : Nat) (mem : Nat → Nat) (start bound : Nat) (pattern : BytePattern)
    (hb : bound + 1 < 2 ^ w) :
    ∀ fuel i, i ≤ bound + 1 → bound + 2 ≤ fuel + i →
      (∃ j, i ≤ j ∧ j ≤ bound ∧
          FindPatternLoop w mem start bound pattern fuel i = some (some (start + j)) ∧
          MatchesAt mem pattern.Bytes (start + j) ∧
          ∀ k, i ≤ k → k < j → ¬ MatchesAt mem pattern.Bytes (start + k)) ∨
      (FindPatternLoop w mem start bound pattern fuel i = some none ∧
          ∀ k, i ≤ k → k ≤ bound → ¬ MatchesAt mem pattern.Bytes (start + k)) := by
  intro fuel
  induction fuel with
  | zero => intro i h1 h2; omega
  | succ fuel ih =>
    intro i h1 h2
    unfold FindPatternLoop
    by_cases hi : i ≤ bound
    · by_cases hm : MatchesAt mem pattern.Bytes (start + i)
      · left
        refine ⟨i, le_refl _, hi, ?_, hm, fun k hk1 hk2 => by omega⟩
        simp [hi, (DataCompare_iff mem (start + i) pattern.Bytes).2 hm]
      · have hd : DataCompare mem (start + i) pattern.Bytes pattern.Bytes.length = false := by
          rw [← Bool.not_eq_true, DataCompare_iff]; exact hm
        have hmod : (i + 1) % 2 ^ w = i + 1 := Nat.mod_eq_of_lt (by omega)
        simp only [hi, if_true, hd, hmod]
        rcases ih (i + 1) (by omega) (by omega) with ⟨j, hj1, hj2, hj3, hj4, hj5⟩ | ⟨h3, h4⟩
        · left
          refine ⟨j, by omega, hj2, by simpa using hj3, hj4, fun k hk1 hk2 => ?_⟩
          by_cases hki : k = i
          · subst hki; exact hm
          · exact hj5 k (by omega) hk2
        · right
          refine ⟨by simpa using h3, fun k hk1 hk2 => ?_⟩
          by_cases hki : k = i
          · subst hki; exact hm
          · exact h4 k (by omega) hk2
    · right
      refine ⟨by simp [hi], fun k hk1 hk2 => by omega⟩

/-- First-match characterisation of `FindPattern` for a non-empty pattern that
fits into the buffer. -/
theorem FindPattern_spec (w : Nat) (mem : Nat → Nat) (start searchlength : Nat)
    (pattern : BytePattern) (hne : pattern.Bytes ≠ [])
    (hlen : pattern.Bytes.length ≤ searchlength) (hsl : searchlength < 2 ^ w) :
    (∃ i, i ≤ searchlength - pattern.Bytes.length ∧
        FindPattern w mem start searchlength pattern = some (some (start + i)) ∧
        MatchesAt mem pattern.Bytes (start + i) ∧
        ∀ j, j < i → ¬ MatchesAt mem pattern.Bytes (start + j)) ∨
    (FindPattern w mem start searchlength pattern = some none ∧
        ∀ i, i ≤ searchlength - pattern.Bytes.length → ¬ MatchesAt mem pattern.Bytes (start + i)) := by
  have hpos : 0 < pattern.Bytes.length := List.length_pos.2 hne
  unfold FindPattern
  simp only [sizeSub_of_le w searchlength pattern.Bytes.length hlen hsl]
  rcases FindPatternLoop_spec w mem start (searchlength - pattern.Bytes.length) pattern (by omega)
      (2 ^ w + 1) 0 (by omega) (by omega) with ⟨j, _, hj2, hj3, hj4, hj5⟩ | ⟨h3, h4⟩
  · exact Or.inl ⟨j, hj2, hj3, hj4, fun k hk => hj5 k (Nat.zero_le _) hk⟩
  · exact Or.inr ⟨h3, fun k hk => h4 k (Nat.zero_le _) hk⟩


theorem hexDigitValue_lt (c : Char) (d : Nat) (h : hexDigitValue c = some d) : d < 16 := by
  unfold hexDigitValue at h
  split_ifs at h <;> simp at h <;> omega

theorem hexDigitValue_not_x (c : Char) (h : isxdigit c = true) :
    c.toNat ≠ 120 ∧ c.toNat ≠ 88 ∧ isspace c = false ∧ c.toNat ≠ 0 := by
  unfold isxdigit hexDigitValue at h
  unfold isspace
  split_ifs at h <;> simp at h <;> refine ⟨by omega, by omega, ?_, by omega⟩ <;>
    simp <;> omega

theorem isspace_not_hex (c : Char) (h : isspace c = true) : hexDigitValue c = none := by
  unfold isspace at h
  unfold hexDigitValue
  simp at h
  split_ifs <;> first | rfl | omega

/-- What `strtol` reads when two hex digits are followed by the end of the text
or by a character that is no hex digit. -/
theorem strtol16_pair (a b : Char) (R : List Char) (ha : isxdigit a = true)
    (hb : isxdigit b = true) (hR : ∀ c ∈ R.head?, hexDigitValue c = none) :
    strtol16 (a :: b :: R) % 256 = 16 * (hexDigitValue a).getD 0 + (hexDigitValue b).getD 0 := by
  obtain ⟨va, hva⟩ := Option.isSome_iff_exists.1 ha
  obtain ⟨vb, hvb⟩ := Option.isSome_iff_exists.1 hb
  have h1 := hexDigitValue_lt a va hva
  have h2 := hexDigitValue_lt b vb hvb
  obtain ⟨hx1, hx2, -, -⟩ := hexDigitValue_not_x b hb
  have hdig : strtolDigits (a :: b :: R) 0 = 16 * va + vb := by
    cases R with
    | nil => simp [strtolDigits, hva, hvb]; omega
    | cons c R =>
      have hc : hexDigitValue c = none := hR c (by simp)
      simp [strtolDigits, hva, hvb, hc]; omega
  have hcond : (a.toNat == 48 && (b.toNat == 120 || b.toNat == 88)) = false := by
    simp [hx1, hx2]
  unfold strtol16
  simp only [hcond, Bool.false_eq_true, if_false, hdig, hva, hvb, Option.getD_some, LONG_MAX]
  omega


theorem patternEntryAt_pair (p : Char × Char) (R : List Char)
    (hp : isHexPair p = true ∨ isWildcardPair p = true)
    (hR : ∀ c ∈ R.head?, hexDigitValue c = none) :
    patternEntryAt p.1 (p.2 :: R) = pairEntry p := by
  unfold patternEntryAt pairEntry
  rcases hp with hp | hp
  · have h := hp
    simp only [isHexPair, Bool.and_eq_true] at h
    simp [hp, h.1, strtol16_pair p.1 p.2 R h.1 h.2 hR]
  · simp only [isWildcardPair, Bool.and_eq_true, Bool.not_eq_true', bne_iff_ne] at hp
    simp [isHexPair, hp.1.1.1]

theorem spacedPairsText_head (rest : List (List Char × (Char × Char)))
    (hsep : ∀ x ∈ rest, ∃ c, x.1 = [c] ∧ isspace c = true) :
    ∀ c ∈ (spacedPairsText rest).head?, hexDigitValue c = none := by
  cases rest with
  | nil => simp [spacedPairsText]
  | cons x rest =>
    obtain ⟨ws, p⟩ := x
    obtain ⟨c, hc, hs⟩ := hsep (ws, p) (by simp)
    simp only at hc
    subst hc
    intro d hd
    simp [spacedPairsText] at hd
    subst hd
    exact isspace_not_hex _ hs

theorem pair_first_not_space (p : Char × Char)
    (hp : isHexPair p = true ∨ isWildcardPair p = true) : isspace p.1 = false := by
  rcases hp with hp | hp
  · simp only [isHexPair, Bool.and_eq_true] at hp
    exact (hexDigitValue_not_x p.1 hp.1).2.2.1
  · simp only [isWildcardPair, Bool.and_eq_true, Bool.not_eq_true', bne_iff_ne] at hp
    exact hp.1.1.2

theorem GetPatternFromStringLoop_spaced (rest : List (List Char × (Char × Char))) :
    (∀ x ∈ rest, (∃ c, x.1 = [c] ∧ isspace c = true) ∧
      (isHexPair x.2 = true ∨ isWildcardPair x.2 = true)) →
    ∀ ret, GetPatternFromStringLoop (spacedPairsText rest) ret =
      some (ret ++ rest.map fun x => pairEntry x.2) := by
  induction rest with
  | nil => intro _ ret; simp [spacedPairsText, GetPatternFromStringLoop]
  | cons x rest ih =>
    intro h ret
    obtain ⟨ws, p⟩ := x
    obtain ⟨⟨c, hc, hs⟩, hp⟩ := h (ws, p) (by simp)
    simp only at hc hp
    subst hc
    have hrest : ∀ x ∈ rest, (∃ c, x.1 = [c] ∧ isspace c = true) ∧
        (isHexPair x.2 = true ∨ isWildcardPair x.2 = true) :=
      fun x hx => h x (by simp [hx])
    have hhead := spacedPairsText_head rest (fun x hx => (hrest x hx).1)
    rw [GetPatternFromStringLoop.eq_def]
    simp only [spacedPairsText, List.singleton_append, hs, if_true]
    rw [patternEntryAt_pair p _ hp hhead, ih hrest]
    simp

theorem GetPatternFromString_pairsText (first : Char × Char)
    (rest : List (List Char × (Char × Char)))
    (hfirst : isHexPair first = true ∨ isWildcardPair first = true)
    (hrest : ∀ x ∈ rest, (∃ c, x.1 = [c] ∧ isspace c = true) ∧
      (isHexPair x.2 = true ∨ isWildcardPair x.2 = true)) :
    GetPatternFromString (pairsText first rest) =
      some ⟨pairEntry first :: rest.map fun x => pairEntry x.2⟩ := by
  have hhead := spacedPairsText_head rest (fun x hx => (hrest x hx).1)
  have hsp := pair_first_not_space first hfirst
  unfold GetPatternFromString pairsText
  rw [GetPatternFromStringLoop.eq_def]
  simp only [hsp, Bool.false_eq_true, if_false]
  rw [patternEntryAt_pair first _ hfirst hhead, GetPatternFromStringLoop_spaced rest hrest]
  simp


theorem hexDigitValue_hexChar (n : Nat) (h : n < 16) : hexDigitValue (hexChar n) = some n := by
  interval_cases n <;> rfl

theorem isHexPair_byteHexPair (b : Nat) (h : b < 256) : isHexPair (byteHexPair b) = true := by
  have h1 : b / 16 < 16 := by omega
  have h2 : b % 16 < 16 := by omega
  simp [isHexPair, byteHexPair, isxdigit, hexDigitValue_hexChar _ h1, hexDigitValue_hexChar _ h2]

theorem pairEntry_byteHexPair (b : Nat) (h : b < 256) : pairEntry (byteHexPair b) = fixedEntry b := by
  have h1 : b / 16 < 16 := by omega
  have h2 : b % 16 < 16 := by omega
  rw [pairEntry, isHexPair_byteHexPair b h]
  simp only [byteHexPair, hexDigitValue_hexChar _ h1, hexDigitValue_hexChar _ h2, if_true,
    Option.getD_some, fixedEntry]
  congr 1
  omega

theorem pairEntry_wildcardPair : pairEntry wildcardPair = ⟨true, 0⟩ := by decide

theorem GetPatternFromString_spacedText (pairs : List (Char × Char))
    (h : ∀ p ∈ pairs, isHexPair p = true ∨ isWildcardPair p = true) :
    GetPatternFromString (spacedText pairs) = some ⟨pairs.map pairEntry⟩ := by
  cases pairs with
  | nil => rfl
  | cons p ps =>
    rw [spacedText, GetPatternFromString_pairsText p _ (h p (by simp))]
    · simp [List.map_map, Function.comp_def]
    · intro x hx
      obtain ⟨q, hq, rfl⟩ := List.mem_map.1 hx
      exact ⟨⟨Char.ofNat 32, rfl, by decide⟩, h q (by simp [hq])⟩

theorem GetPatternFromString_hexText (s : List Nat) (h : ∀ b ∈ s, b < 256) :
    GetPatternFromString (hexText s) = some ⟨s.map fixedEntry⟩ := by
  rw [hexText, GetPatternFromString_spacedText]
  · rw [List.map_map]
    congr 2
    apply List.map_congr_left
    intro b hb
    exact pairEntry_byteHexPair b (h b hb)
  · intro p hp
    obtain ⟨b, hb, rfl⟩ := List.mem_map.1 hp
    exact Or.inl (isHexPair_byteHexPair b (h b hb))

theorem MatchesAt_fixed (mem : Nat → Nat) (s : List Nat) (addr : Nat) :
    MatchesAt mem (s.map fixedEntry) addr ↔ ∀ j (h : j < s.length), mem (addr + j) = s[j] := by
  unfold MatchesAt
  constructor
  · intro h j hj
    have := h j (by simpa using hj) (by simp [fixedEntry])
    simpa [fixedEntry] using this
  · intro h j hj _
    have := h j (by simpa using hj)
    simpa [fixedEntry] using this


/-! ## The byte pattern engine: results -/

/-- C1. For a non-empty pattern and a buffer at least as long as the pattern,
`FindPattern` returns the address `start + i` of the smallest offset
`i ≤ searchlength - length` at which the pattern matches, and returns `nullptr`
exactly when no offset in that range matches. -/
theorem FindPattern_first_match (w : Nat) (mem : Nat → Nat) (start searchlength : Nat)
    (pattern : BytePattern) (hne : pattern.Bytes ≠ [])
    (hlen : pattern.Bytes.length ≤ searchlength) (hsl : searchlength < 2 ^ w) :
    (∃ i, i ≤ searchlength - pattern.Bytes.length ∧
        FindPattern w mem start searchlength pattern = some (some (start + i)) ∧
        MatchesAt mem pattern.Bytes (start + i) ∧
        ∀ j, j < i → ¬ MatchesAt mem pattern.Bytes (start + j)) ∨
    (FindPattern w mem start searchlength pattern = some none ∧
        ∀ i, i ≤ searchlength - pattern.Bytes.length → ¬ MatchesAt mem pattern.Bytes (start + i)) :=
  FindPattern_spec w mem start searchlength pattern hne hlen hsl

/-- Witness of C1: the pattern `AA ??` scanned over the ten bytes at address 100. -/
theorem FindPattern_first_match_witness :
    ((⟨[⟨false, 170⟩, ⟨true, 0⟩]⟩ : BytePattern).Bytes ≠ [] ∧
      (⟨[⟨false, 170⟩, ⟨true, 0⟩]⟩ : BytePattern).Bytes.length ≤ 10 ∧ 10 < 2 ^ 32) ∧
    ((∃ i, i ≤ 10 - (⟨[⟨false, 170⟩, ⟨true, 0⟩]⟩ : BytePattern).Bytes.length ∧
        FindPattern 32 (fun a => if a = 103 then 170 else 0) 100 10 ⟨[⟨false, 170⟩, ⟨true, 0⟩]⟩ =
          some (some (100 + i)) ∧
        MatchesAt (fun a => if a = 103 then 170 else 0) [⟨false, 170⟩, ⟨true, 0⟩] (100 + i) ∧
        ∀ j, j < i →
          ¬ MatchesAt (fun a => if a = 103 then 170 else 0) [⟨false, 170⟩, ⟨true, 0⟩] (100 + j)) ∨
      (FindPattern 32 (fun a => if a = 103 then 170 else 0) 100 10 ⟨[⟨false, 170⟩, ⟨true, 0⟩]⟩ =
          some none ∧
        ∀ i, i ≤ 10 - (⟨[⟨false, 170⟩, ⟨true, 0⟩]⟩ : BytePattern).Bytes.length →
          ¬ MatchesAt (fun a => if a = 103 then 170 else 0) [⟨false, 170⟩, ⟨true, 0⟩] (100 + i))) :=
  ⟨⟨by decide, by decide, by decide⟩,
    FindPattern_first_match 32 (fun a => if a = 103 then 170 else 0) 100 10
      ⟨[⟨false, 170⟩, ⟨true, 0⟩]⟩ (by decide) (by decide) (by decide)⟩

/-- C2, as stated, fails: in the buffer `AA AA` the sequence `AA` is embedded
at offset 1, and the scan for its hex text returns offset 0. -/
theorem scan_hexText_earlier_occurrence :
    EmbeddedAt (fun _ => 170) 100 [170] 1 ∧
    GetPatternFromString (hexText [170]) = some ⟨[⟨false, 170⟩]⟩ ∧
    FindPattern 32 (fun _ => 170) 100 2 ⟨[⟨false, 170⟩]⟩ = some (some (100 + 0)) ∧
    FindPattern 32 (fun _ => 170) 100 2 ⟨[⟨false, 170⟩]⟩ ≠ some (some (100 + 1)) := by
  refine ⟨by decide, by decide, by decide, by decide⟩

/-- C2, amended. For a non-empty byte sequence `s` embedded in the buffer at
offset `k`, the hex text of `s` compiles, and scanning the whole buffer for it
returns the smallest offset at which `s` lies in the buffer; that offset is at
most `k`, and is `k` when `s` does not occur earlier. -/
theorem scan_hexText_first_occurrence (w : Nat) (mem : Nat → Nat) (start searchlength : Nat)
    (s : List Nat) (k : Nat) (hne : s ≠ []) (hbytes : ∀ b ∈ s, b < 256)
    (hk : k + s.length ≤ searchlength) (hsl : searchlength < 2 ^ w)
    (hemb : EmbeddedAt mem start s k) :
    ∃ pattern i, GetPatternFromString (hexText s) = some pattern ∧
      FindPattern w mem start searchlength pattern = some (some (start + i)) ∧
      i ≤ k ∧ EmbeddedAt mem start s i ∧ (∀ j, j < i → ¬ EmbeddedAt mem start s j) ∧
      ((∀ j, j < k → ¬ EmbeddedAt mem start s j) → i = k) := by
  have hM : ∀ i, MatchesAt mem (s.map fixedEntry) (start + i) ↔ EmbeddedAt mem start s i :=
    fun i => MatchesAt_fixed mem s (start + i)
  refine ⟨⟨s.map fixedEntry⟩, ?_⟩
  rcases FindPattern_spec w mem start searchlength ⟨s.map fixedEntry⟩ (by simpa using hne)
      (by simp only [List.length_map]; omega) hsl with ⟨i, -, hi2, hi3, hi4⟩ | ⟨-, h4⟩
  · have hik : i ≤ k := by
      by_contra hlt
      exact hi4 k (by omega) ((hM k).2 hemb)
    refine ⟨i, GetPatternFromString_hexText s hbytes, hi2, hik, (hM i).1 hi3,
      fun j hj hj2 => hi4 j hj ((hM j).2 hj2), fun hnone => ?_⟩
    by_contra hne2
    exact hnone i (by omega) ((hM i).1 hi3)
  · exact absurd ((hM k).2 hemb) (h4 k (by simp only [List.length_map]; omega))

/-- Witness of C2 (amended): the bytes `AA BB` at offset 3 of a ten-byte buffer. -/
theorem scan_hexText_first_occurrence_witness :
    ([170, 187] ≠ [] ∧ (∀ b ∈ [170, 187], b < 256) ∧ 3 + [170, 187].length ≤ 10 ∧ 10 < 2 ^ 32 ∧
      EmbeddedAt (fun a => if a = 103 then 170 else if a = 104 then 187 else 0) 100 [170, 187] 3) ∧
    ∃ pattern i, GetPatternFromString (hexText [170, 187]) = some pattern ∧
      FindPattern 32 (fun a => if a = 103 then 170 else if a = 104 then 187 else 0) 100 10 pattern =
        some (some (100 + i)) ∧
      i ≤ 3 ∧
      EmbeddedAt (fun a => if a = 103 then 170 else if a = 104 then 187 else 0) 100 [170, 187] i ∧
      (∀ j, j < i →
        ¬ EmbeddedAt (fun a => if a = 103 then 170 else if a = 104 then 187 else 0) 100
          [170, 187] j) ∧
      ((∀ j, j < 3 →
        ¬ EmbeddedAt (fun a => if a = 103 then 170 else if a = 104 then 187 else 0) 100
          [170, 187] j) → i = 3) :=
  ⟨⟨by decide, by decide, by decide, by decide, by decide⟩,
    scan_hexText_first_occurrence 32
      (fun a => if a = 103 then 170 else if a = 104 then 187 else 0) 100 10 [170, 187] 3
      (by decide) (by decide) (by decide) (by decide) (by decide)⟩


/-- C3. A buffer shorter than the pattern is scanned beyond its end. The buffer
is the single byte `00` at address 100 and the pattern is `00 00`: with a zero
byte behind the buffer the scan reports a match at address 100, and with other
bytes behind the same buffer it reports a match at address 102, outside the
buffer; the loop bound `searchlength - length` has wrapped to `2 ^ 32 - 1`. -/
theorem FindPattern_short_buffer_overrun :
    sizeSub 32 1 2 = 2 ^ 32 - 1 ∧
    FindPattern 32 (fun _ => 0) 100 1 ⟨[⟨false, 0⟩, ⟨false, 0⟩]⟩ = some (some 100) ∧
    FindPattern 32 (fun a => if a = 101 then 1 else 0) 100 1 ⟨[⟨false, 0⟩, ⟨false, 0⟩]⟩ =
      some (some 102) := by
  refine ⟨by decide, by decide, by decide⟩

/-- C4, as stated, fails: the empty pattern is found in a four-byte buffer. -/
theorem FindPattern_empty_pattern_found :
    FindPattern 32 (fun _ => 0) 100 4 ⟨[]⟩ = some (some 100) ∧
    FindPattern 32 (fun _ => 0) 100 4 ⟨[]⟩ ≠ some none := by
  refine ⟨by decide, by decide⟩

/-- C4, amended. A pattern with zero entries matches everywhere: `DataCompare`
is true at every address, and `FindPattern` returns `start`, the address of
offset 0, for every buffer, whatever its length. -/
theorem FindPattern_empty_pattern (w : Nat) (mem : Nat → Nat) (start searchlength : Nat) :
    (∀ data, DataCompare mem data [] 0 = true) ∧
    FindPattern w mem start searchlength ⟨[]⟩ = some (some start) := by
  have hd : ∀ data, DataCompare mem data [] 0 = true := fun data => rfl
  refine ⟨hd, ?_⟩
  simp [FindPattern, FindPatternLoop, hd]

/-- C5, as stated, fails: with no whitespace between the pairs `AA` and `BB`
the compiled pattern is `BB BB`, with two spaces the parse leaves the string,
and only with one space it is `AA BB`, one entry per pair. -/
theorem GetPatternFromString_whitespace_sensitive :
    GetPatternFromString (pairsText (Char.ofNat 65, Char.ofNat 65)
        [([], (Char.ofNat 66, Char.ofNat 66))]) = some ⟨[⟨false, 187⟩, ⟨false, 187⟩]⟩ ∧
    GetPatternFromString (pairsText (Char.ofNat 65, Char.ofNat 65)
        [([Char.ofNat 32], (Char.ofNat 66, Char.ofNat 66))]) =
      some ⟨[⟨false, 170⟩, ⟨false, 187⟩]⟩ ∧
    GetPatternFromString (pairsText (Char.ofNat 65, Char.ofNat 65)
        [([Char.ofNat 32, Char.ofNat 32], (Char.ofNat 66, Char.ofNat 66))]) = none ∧
    [pairEntry (Char.ofNat 65, Char.ofNat 65), pairEntry (Char.ofNat 66, Char.ofNat 66)] =
      [⟨false, 170⟩, ⟨false, 187⟩] := by
  refine ⟨by decide, by decide, by decide, by decide⟩

/-- C5, amended. For every non-empty sequence of pairs, each a pair of hex
digits or a wildcard pair, with exactly one whitespace character between
consecutive pairs, the compiled pattern has exactly one entry per pair, in
order: a fixed entry with the byte value for a hex pair, a wildcard otherwise.
It is the same whichever whitespace characters separate the pairs. -/
theorem GetPatternFromString_single_whitespace (first : Char × Char)
    (rest : List (List Char × (Char × Char)))
    (hfirst : isHexPair first = true ∨ isWildcardPair first = true)
    (hrest : ∀ x ∈ rest, (∃ c, x.1 = [c] ∧ isspace c = true) ∧
      (isHexPair x.2 = true ∨ isWildcardPair x.2 = true)) :
    GetPatternFromString (pairsText first rest) =
      some ⟨pairEntry first :: rest.map fun x => pairEntry x.2⟩ :=
  GetPatternFromString_pairsText first rest hfirst hrest

/-- Witness of C5 (amended): the text `4A`, tab, `??`, space, `0f`. -/
theorem GetPatternFromString_single_whitespace_witness :
    ((isHexPair (Char.ofNat 52, Char.ofNat 65) = true ∨
        isWildcardPair (Char.ofNat 52, Char.ofNat 65) = true) ∧
      (∀ x ∈ [([Char.ofNat 9], (Char.ofNat 63, Char.ofNat 63)),
            ([Char.ofNat 32], (Char.ofNat 48, Char.ofNat 102))],
        (∃ c, x.1 = [c] ∧ isspace c = true) ∧
          (isHexPair x.2 = true ∨ isWildcardPair x.2 = true))) ∧
    GetPatternFromString (pairsText (Char.ofNat 52, Char.ofNat 65)
        [([Char.ofNat 9], (Char.ofNat 63, Char.ofNat 63)),
          ([Char.ofNat 32], (Char.ofNat 48, Char.ofNat 102))]) =
      some ⟨pairEntry (Char.ofNat 52, Char.ofNat 65) ::
        [([Char.ofNat 9], (Char.ofNat 63, Char.ofNat 63)),
          ([Char.ofNat 32], (Char.ofNat 48, Char.ofNat 102))].map fun x => pairEntry x.2⟩ :=
  have h1 : isHexPair (Char.ofNat 52, Char.ofNat 65) = true ∨
      isWildcardPair (Char.ofNat 52, Char.ofNat 65) = true := Or.inl (by decide)
  have h2 : ∀ x ∈ [([Char.ofNat 9], (Char.ofNat 63, Char.ofNat 63)),
        ([Char.ofNat 32], (Char.ofNat 48, Char.ofNat 102))],
      (∃ c, x.1 = [c] ∧ isspace c = true) ∧
        (isHexPair x.2 = true ∨ isWildcardPair x.2 = true) := by
    intro x hx
    simp only [List.mem_cons, List.mem_singleton, List.not_mem_nil, or_false] at hx
    rcases hx with rfl | rfl
    · exact ⟨⟨Char.ofNat 9, rfl, by decide⟩, Or.inr (by decide)⟩
    · exact ⟨⟨Char.ofNat 32, rfl, by decide⟩, Or.inl (by decide)⟩
  ⟨⟨h1, h2⟩, GetPatternFromString_single_whitespace _ _ h1 h2⟩

/-- C6. For a byte sequence `s` embedded at offset `k` and an index `j` into
it, the text of `s` with pair `j` replaced by `??` compiles to a pattern that
`DataCompare` matches at offset `k` in every memory obtained by replacing the
byte at `k + j` with any value `v`. -/
theorem wildcard_insensitive (mem : Nat → Nat) (start : Nat) (s : List Nat) (k j v : Nat)
    (hbytes : ∀ b ∈ s, b < 256) (_hj : j < s.length) (hemb : EmbeddedAt mem start s k) :
    ∃ pattern,
      GetPatternFromString (spacedText ((s.map byteHexPair).set j wildcardPair)) = some pattern ∧
      DataCompare (Function.update mem (start + k + j) v) (start + k) pattern.Bytes
        pattern.Bytes.length = true := by
  refine ⟨⟨((s.map byteHexPair).set j wildcardPair).map pairEntry⟩, ?_, ?_⟩
  · apply GetPatternFromString_spacedText
    intro p hp
    rcases List.mem_or_eq_of_mem_set hp with hp | rfl
    · obtain ⟨b, hb, rfl⟩ := List.mem_map.1 hp
      exact Or.inl (isHexPair_byteHexPair b (hbytes b hb))
    · exact Or.inr (by decide)
  · rw [DataCompare_iff]
    intro i hi hu
    have hi2 : i < s.length := by simpa using hi
    simp only [List.getElem_map, List.getElem_set] at hu ⊢
    by_cases hji : j = i
    · simp [hji, pairEntry_wildcardPair] at hu
    · simp only [hji, if_false, List.getElem_map] at hu ⊢
      rw [pairEntry_byteHexPair _ (hbytes _ (List.getElem_mem _)),
        Function.update_noteq (by omega)]
      exact hemb i hi2

/-- Witness of C6: `AA BB CC` at offset 2, the middle pair made a wildcard and
the middle byte overwritten with `11`. -/
theorem wildcard_insensitive_witness :
    ((∀ b ∈ [170, 187, 204], b < 256) ∧ 1 < [170, 187, 204].length ∧
      EmbeddedAt (fun a => [0, 0, 170, 187, 204, 0].getD (a - 100) 0) 100 [170, 187, 204] 2) ∧
    ∃ pattern,
      GetPatternFromString (spacedText (([170, 187, 204].map byteHexPair).set 1 wildcardPair)) =
        some pattern ∧
      DataCompare
        (Function.update (fun a => [0, 0, 170, 187, 204, 0].getD (a - 100) 0) (100 + 2 + 1) 17)
        (100 + 2) pattern.Bytes pattern.Bytes.length = true :=
  ⟨⟨by decide, by decide, by decide⟩,
    wildcard_insensitive (fun a => [0, 0, 170, 187, 204, 0].getD (a - 100) 0) 100
      [170, 187, 204] 2 1 17 (by decide) (by decide) (by decide)⟩


/-! ## The configuration store: lemmas -/

namespace Config

theorem findInherit_none (props : List Property) (h : "Inherit" ∉ propertyNames props) :
    findInherit props = none := by
  induction props with
  | nil => rfl
  | cons it rest ih =>
    simp only [propertyNames, List.map_cons, List.mem_cons, not_or] at h
    have h1 : (it.1 == "Inherit") = false := by
      simpa using fun e => h.1 e.symm
    simp [findInherit, h1, ih h.2]

theorem findInherit_split (before after : List Property) (value : ValueType)
    (h : "Inherit" ∉ propertyNames before) :
    findInherit (before ++ ("Inherit", value) :: after) = some (before, value, after) := by
  induction before with
  | nil => simp [findInherit]
  | cons it rest ih =>
    simp only [propertyNames, List.map_cons, List.mem_cons, not_or] at h
    have h1 : (it.1 == "Inherit") = false := by
      simpa using fun e => h.1 e.symm
    simp [findInherit, h1, ih h.2]

theorem firstSeen_congr (source : List Property) :
    ∀ seen1 seen2 : List String, (∀ x, x ∈ seen1 ↔ x ∈ seen2) →
      firstSeen source seen1 = firstSeen source seen2 := by
  induction source with
  | nil => intro _ _ _; rfl
  | cons p ps ih =>
    intro seen1 seen2 h
    by_cases hp : p.1 ∈ seen1
    · simp [firstSeen, hp, (h p.1).1 hp, ih seen1 seen2 h]
    · have hp2 : p.1 ∉ seen2 := fun h2 => hp ((h p.1).2 h2)
      simp only [firstSeen, hp, hp2, if_false]
      rw [ih (p.1 :: seen1) (p.1 :: seen2) (fun x => by simp [h x])]

theorem mergeProperties_eq (source : List Property) :
    ∀ dest, mergeProperties source dest = dest ++ firstSeen source (propertyNames dest) := by
  induction source with
  | nil => intro dest; simp [mergeProperties, firstSeen]
  | cons sp source ih =>
    intro dest
    have hany : (dest.any fun destprop => sp.1 == destprop.1) = true ↔
        sp.1 ∈ propertyNames dest := by
      constructor
      · intro h
        obtain ⟨d, hd, he⟩ := List.any_eq_true.1 h
        have he2 : sp.1 = d.1 := by simpa using he
        exact he2 ▸ List.mem_map_of_mem (fun p => p.1) hd
      · intro h
        obtain ⟨d, hd, he⟩ := List.mem_map.1 h
        exact List.any_eq_true.2 ⟨d, hd, by simp [← he]⟩
    by_cases hin : sp.1 ∈ propertyNames dest
    · simp [mergeProperties, firstSeen, hin, hany.2 hin, ih]
    · have hany2 : (dest.any fun destprop => sp.1 == destprop.1) = false := by
        rw [← Bool.not_eq_true, hany]; exact hin
      simp only [mergeProperties, firstSeen, hin, hany2, Bool.not_false, if_true, if_false, ih]
      rw [firstSeen_congr source (propertyNames (dest ++ [sp])) (sp.1 :: propertyNames dest)
        (fun x => by simp [propertyNames, or_comm])]
      simp

theorem firstSeen_subset (source : List Property) :
    ∀ seen p, p ∈ firstSeen source seen → p ∈ source ∧ p.1 ∉ seen := by
  induction source with
  | nil => intro seen p h; simp [firstSeen] at h
  | cons q qs ih =>
    intro seen p h
    by_cases hq : q.1 ∈ seen
    · simp only [firstSeen, hq, if_true] at h
      exact ⟨List.mem_cons_of_mem _ (ih seen p h).1, (ih seen p h).2⟩
    · simp only [firstSeen, hq, if_false, List.mem_cons] at h
      rcases h with rfl | h
      · exact ⟨List.mem_cons_self _ _, hq⟩
      · exact ⟨List.mem_cons_of_mem _ (ih _ p h).1, fun hp => (ih _ p h).2 (List.mem_cons_of_mem _ hp)⟩

theorem firstSeen_of_nodup (source : List Property) :
    ∀ seen, (propertyNames source).Nodup →
      firstSeen source seen = source.filter fun p => !seen.contains p.1 := by
  induction source with
  | nil => intro _ _; rfl
  | cons q qs ih =>
    intro seen hnd
    simp only [propertyNames, List.map_cons, List.nodup_cons] at hnd
    by_cases hq : q.1 ∈ seen
    · simp [firstSeen, hq, ih seen hnd.2, List.filter_cons]
    · have hc : (!seen.contains q.1) = true := by simpa using hq
      simp only [firstSeen, hq, if_false, List.filter_cons, hc, if_true]
      rw [ih (q.1 :: seen) hnd.2]
      congr 1
      apply List.filter_congr
      intro p hp
      have hne : p.1 ≠ q.1 := fun e => hnd.1 (e ▸ List.mem_map_of_mem (fun p => p.1) hp)
      simp [hne]

theorem inheritWalk_cons (fromName : String) (dest : List Property) (game : GameData)
    (rest : List GameData) :
    inheritWalk fromName dest (game :: rest) =
      if game.Name = fromName then .ok (mergeProperties game.Properties dest)
      else .error Status.InheritTargetWrong := by
  by_cases h : game.Name = fromName <;> simp [inheritWalk, h]

theorem ResolveInherit_no_inherit (fuel : Nat) (Configs : List GameData) (target : Nat)
    (targetgame : GameData) (htarget : Configs[target]? = some targetgame)
    (hfind : findInherit targetgame.Properties = none) :
    ResolveInherit (fuel + 1) Configs target = some ⟨none, Configs⟩ := by
  simp [ResolveInherit, htarget, hfind]

theorem ResolveInherit_string (fuel : Nat) (Configs : List GameData) (target : Nat)
    (targetgame : GameData) (before after : List Property) (fromName : String)
    (htarget : Configs[target]? = some targetgame)
    (hfind : findInherit targetgame.Properties = some (before, ValueType.string fromName, after)) :
    ResolveInherit (fuel + 1) Configs target =
      match inheritWalk fromName (before ++ after)
          (Configs.set target ⟨targetgame.Name, before ++ after⟩) with
      | .error status => some ⟨some status, Configs.set target ⟨targetgame.Name, before ++ after⟩⟩
      | .ok properties =>
        ResolveInherit fuel
          ((Configs.set target ⟨targetgame.Name, before ++ after⟩).set target
            ⟨targetgame.Name, properties⟩) target := by
  simp [ResolveInherit, htarget, hfind, ValueType.IsString, ValueType.GetString]


theorem ResolveInherit_throw_of_head_ne (fuel : Nat) (Configs : List GameData) (target : Nat)
    (targetgame : GameData) (before after : List Property) (fromName : String)
    (htarget : Configs[target]? = some targetgame)
    (hfind : findInherit targetgame.Properties = some (before, ValueType.string fromName, after))
    (hhead : ∀ game ∈ (Configs.set target ⟨targetgame.Name, before ++ after⟩).head?,
      game.Name ≠ fromName) :
    ResolveInherit (fuel + 1) Configs target =
      some ⟨some Status.InheritTargetWrong,
        Configs.set target ⟨targetgame.Name, before ++ after⟩⟩ := by
  rw [ResolveInherit_string fuel Configs target targetgame before after fromName htarget hfind]
  have hlen : target < Configs.length := (List.getElem?_eq_some.1 htarget).1
  cases hC : Configs.set target ⟨targetgame.Name, before ++ after⟩ with
  | nil =>
    have h0 : (Configs.set target ⟨targetgame.Name, before ++ after⟩).length = 0 := by
      rw [hC]; rfl
    rw [List.length_set] at h0
    omega
  | cons game rest =>
    have hne : game.Name ≠ fromName := hhead game (by simp [hC])
    simp [inheritWalk_cons, hne]

theorem findGame_first (gamename : String) (Configs : List GameData) :
    ∀ t, (∃ game, Configs[t]? = some game ∧ game.Name = gamename) →
      (∀ i game, i < t → Configs[i]? = some game → game.Name ≠ gamename) →
      findGame gamename Configs = some t := by
  induction Configs with
  | nil => intro t ⟨game, h, _⟩; simp at h
  | cons g rest ih =>
    intro t ⟨game, hg, hn⟩ hfirst
    cases t with
    | zero =>
      simp only [List.getElem?_cons_zero, Option.some.injEq] at hg
      subst hg
      simp [findGame, hn]
    | succ t =>
      have h0 : g.Name ≠ gamename := hfirst 0 g (Nat.succ_pos _) (by simp)
      have := ih t ⟨game, by simpa using hg, hn⟩
        (fun i game hi hgi => hfirst (i + 1) game (by omega) (by simpa using hgi))
      simp [findGame, h0, this]

end Config

/-! ## The configuration store: results -/

namespace Config

/-- C7, as stated, fails: the parent `P` holds the name `Y` twice and the child
`T` holds only `Inherit`; the merge copies the first `Y` alone, where the child
followed by every parent property whose name the child lacks has both. -/
theorem ResolveInherit_parent_duplicate_names :
    ResolveInherit 2
        [⟨"P", [("Y", ValueType.number 1), ("Y", ValueType.number 2)]⟩,
          ⟨"T", [("Inherit", ValueType.string "P")]⟩] 1 =
      some ⟨none, [⟨"P", [("Y", ValueType.number 1), ("Y", ValueType.number 2)]⟩,
        ⟨"T", [("Y", ValueType.number 1)]⟩]⟩ ∧
    staticMerge [] [("Y", ValueType.number 1), ("Y", ValueType.number 2)] =
      [("Y", ValueType.number 1), ("Y", ValueType.number 2)] ∧
    [("Y", ValueType.number 1)] ≠
      staticMerge [] [("Y", ValueType.number 1), ("Y", ValueType.number 2)] := by
  refine ⟨rfl, rfl, ?_⟩
  intro h
  have h2 : (staticMerge [] [("Y", ValueType.number 1), ("Y", ValueType.number 2)]).length = 2 :=
    rfl
  rw [← h] at h2
  simp at h2

/-- C7, amended. When `ResolveInherit` completes without failure on a target
whose only `Inherit` property is a string naming the parent title, every entry
of that title being another entry without `Inherit` property, the target ends
with its original properties minus `Inherit`, in order and unchanged, followed
by the properties of the parent whose names occur neither in the target nor
earlier in the parent, in the order of the parent; no copied property has a
name of the target, and if the names of the parent are distinct the copied ones
are exactly the properties of the parent whose names the target lacks. No other
entry changes. -/
theorem ResolveInherit_single_level (fuel : Nat) (Configs : List GameData) (target : Nat)
    (targetgame : GameData) (before after : List Property) (parent : String)
    (r : ResolveResult)
    (htarget : Configs[target]? = some targetgame)
    (hprops : targetgame.Properties = before ++ ("Inherit", ValueType.string parent) :: after)
    (hbefore : "Inherit" ∉ propertyNames before) (hafter : "Inherit" ∉ propertyNames after)
    (hparent : ∀ i game, Configs[i]? = some game → game.Name = parent →
      i ≠ target ∧ "Inherit" ∉ propertyNames game.Properties)
    (hrun : ResolveInherit fuel Configs target = some r) (hok : r.thrown = none) :
    ∃ parentgame, Configs.find? (fun game => game.Name == parent) = some parentgame ∧
      r.Configs = Configs.set target ⟨targetgame.Name,
        before ++ after ++ firstSeen parentgame.Properties (propertyNames (before ++ after))⟩ ∧
      (∀ p ∈ firstSeen parentgame.Properties (propertyNames (before ++ after)),
        p ∈ parentgame.Properties ∧ p.1 ∉ propertyNames (before ++ after)) ∧
      ((propertyNames parentgame.Properties).Nodup →
        before ++ after ++ firstSeen parentgame.Properties (propertyNames (before ++ after)) =
          staticMerge (before ++ after) parentgame.Properties) := by
  have hfind : findInherit targetgame.Properties =
      some (before, ValueType.string parent, after) := by
    rw [hprops]; exact findInherit_split before after _ hbefore
  have hlen : target < Configs.length := (List.getElem?_eq_some.1 htarget).1
  cases fuel with
  | zero => simp [ResolveInherit] at hrun
  | succ fuel =>
    rw [ResolveInherit_string fuel Configs target targetgame before after parent htarget hfind]
      at hrun
    cases Configs with
    | nil => simp at hlen
    | cons g0 rest =>
      cases target with
      | zero =>
        have hg : g0 = targetgame := by simpa using htarget
        have hne : targetgame.Name ≠ parent := fun e =>
          (hparent 0 g0 (by simp) (hg ▸ e)).1 rfl
        simp only [List.set_cons_zero, inheritWalk_cons, hne, if_false] at hrun
        simp only [Option.some.injEq] at hrun
        rw [← hrun] at hok
        simp at hok
      | succ n =>
        by_cases hname : g0.Name = parent
        · have hnoinh : "Inherit" ∉ propertyNames g0.Properties :=
            (hparent 0 g0 (by simp) hname).2
          simp only [List.set_cons_succ, inheritWalk_cons, hname, if_true, List.set_set] at hrun
          rw [mergeProperties_eq] at hrun
          have hmerged : "Inherit" ∉ propertyNames
              (before ++ after ++ firstSeen g0.Properties (propertyNames (before ++ after))) := by
            simp only [propertyNames, List.map_append, List.mem_append, not_or]
            refine ⟨⟨hbefore, hafter⟩, fun hmem => ?_⟩
            obtain ⟨p, hp, he⟩ := List.mem_map.1 hmem
            exact hnoinh (he ▸ List.mem_map_of_mem (fun p => p.1) (firstSeen_subset _ _ p hp).1)
          cases fuel with
          | zero => simp [ResolveInherit] at hrun
          | succ fuel =>
            rw [ResolveInherit_no_inherit fuel _ (n + 1)
              ⟨targetgame.Name,
                before ++ after ++ firstSeen g0.Properties (propertyNames (before ++ after))⟩
              (by
                have hn : n < rest.length := by simpa using hlen
                simp [List.getElem?_set, hn])
              (findInherit_none _ hmerged)] at hrun
            simp only [Option.some.injEq] at hrun
            refine ⟨g0, by simp [List.find?, hname], by rw [← hrun]; simp,
              fun p hp => firstSeen_subset _ _ p hp, fun hnd => ?_⟩
            rw [firstSeen_of_nodup _ _ hnd]
            rfl
        · simp only [List.set_cons_succ, inheritWalk_cons, hname, if_false] at hrun
          simp only [Option.some.injEq] at hrun
          rw [← hrun] at hok
          simp at hok


/-- Witness of C7 (amended): `T` holds `X`, `Inherit = "P"`, `Z`, and the
first loaded title `P` holds `X`, `Y`; `T` ends with `X`, `Z`, `Y`. -/
theorem ResolveInherit_single_level_witness :
    ([exampleParent, exampleChild][1]? = some exampleChild ∧
      exampleChild.Properties = [("X", ValueType.number 1)] ++
        ("Inherit", ValueType.string "P") :: [("Z", ValueType.number 5)] ∧
      "Inherit" ∉ propertyNames [("X", ValueType.number 1)] ∧
      "Inherit" ∉ propertyNames [("Z", ValueType.number 5)] ∧
      ResolveInherit 2 [exampleParent, exampleChild] 1 =
        some ⟨none, [exampleParent, ⟨"T", [("X", ValueType.number 1), ("Z", ValueType.number 5),
          ("Y", ValueType.number 2)]⟩]⟩) ∧
    ∃ parentgame,
      [exampleParent, exampleChild].find? (fun game => game.Name == "P") = some parentgame ∧
      [exampleParent, ⟨"T", [("X", ValueType.number 1), ("Z", ValueType.number 5),
          ("Y", ValueType.number 2)]⟩] =
        [exampleParent, exampleChild].set 1 ⟨exampleChild.Name,
          [("X", ValueType.number 1)] ++ [("Z", ValueType.number 5)] ++
            firstSeen parentgame.Properties
              (propertyNames ([("X", ValueType.number 1)] ++ [("Z", ValueType.number 5)]))⟩ ∧
      (∀ p ∈ firstSeen parentgame.Properties
          (propertyNames ([("X", ValueType.number 1)] ++ [("Z", ValueType.number 5)])),
        p ∈ parentgame.Properties ∧
          p.1 ∉ propertyNames ([("X", ValueType.number 1)] ++ [("Z", ValueType.number 5)])) ∧
      ((propertyNames parentgame.Properties).Nodup →
        [("X", ValueType.number 1)] ++ [("Z", ValueType.number 5)] ++
            firstSeen parentgame.Properties
              (propertyNames ([("X", ValueType.number 1)] ++ [("Z", ValueType.number 5)])) =
          staticMerge ([("X", ValueType.number 1)] ++ [("Z", ValueType.number 5)])
            parentgame.Properties) :=
  ⟨⟨rfl, rfl, by decide, by decide, rfl⟩,
    ResolveInherit_single_level 2 [exampleParent, exampleChild] 1 exampleChild
      [("X", ValueType.number 1)] [("Z", ValueType.number 5)] "P"
      ⟨none, [exampleParent, ⟨"T", [("X", ValueType.number 1), ("Z", ValueType.number 5),
        ("Y", ValueType.number 2)]⟩]⟩
      rfl rfl (by decide) (by decide)
      (fun i game hi hn =>
        match i, hi with
        | 0, hi => by
          have hg : exampleParent = game := by simpa using hi
          subst hg
          exact ⟨by decide, by decide⟩
        | 1, hi => by
          have hg : exampleChild = game := by simpa using hi
          subst hg
          exact absurd hn (by decide)
        | _ + 2, hi => by simp at hi)
      rfl rfl⟩

/-- C8. The entry `B` is loaded, at the second position, and `A` inherits `B`:
`ResolveInherit` compares the first candidate `A` alone and throws
`InheritTargetWrong`. -/
theorem ResolveInherit_throws_on_first_candidate :
    "B" ∈ [chainA, chainC, ⟨"B", [("Y", ValueType.number 2)]⟩].map (fun game => game.Name) ∧
    ResolveInherit 2 [chainA, chainC, ⟨"B", [("Y", ValueType.number 2)]⟩] 0 =
      some ⟨some Status.InheritTargetWrong,
        [⟨"A", [("X", ValueType.number 1)]⟩, chainC, ⟨"B", [("Y", ValueType.number 2)]⟩]⟩ := by
  refine ⟨by decide, rfl⟩

/-- C9. The chain `A` inherits `B`, `B` inherits `C`: resolving `A` throws
`InheritTargetWrong` in each of the six load orders of the three titles. With
`B` loaded first the properties of `B` are merged into `A`, and the lookup of
`C` then fails on the first candidate `B`. -/
theorem ResolveInherit_chain_fails :
    ResolveInherit 3 [chainB, chainA, chainC] 1 =
      some ⟨some Status.InheritTargetWrong,
        [chainB, ⟨"A", [("X", ValueType.number 1), ("Y", ValueType.number 2)]⟩, chainC]⟩ ∧
    (ResolveInherit 3 [chainA, chainB, chainC] 0).map (fun r => r.thrown) =
      some (some Status.InheritTargetWrong) ∧
    (ResolveInherit 3 [chainA, chainC, chainB] 0).map (fun r => r.thrown) =
      some (some Status.InheritTargetWrong) ∧
    (ResolveInherit 3 [chainB, chainC, chainA] 2).map (fun r => r.thrown) =
      some (some Status.InheritTargetWrong) ∧
    (ResolveInherit 3 [chainC, chainA, chainB] 1).map (fun r => r.thrown) =
      some (some Status.InheritTargetWrong) ∧
    (ResolveInherit 3 [chainC, chainB, chainA] 2).map (fun r => r.thrown) =
      some (some Status.InheritTargetWrong) := by
  refine ⟨rfl, rfl, rfl, rfl, rfl, rfl⟩

/-- C10. When the first `Inherit` property of the target title is a string
that is the name of no loaded title, `ResolveInherit` throws
`InheritTargetWrong`, whose entry of `StatusNames` is "Inherit target not
found", and `SetupGame` ends with that status without invoking a handler. -/
theorem missing_inherit_target (fuel : Nat) (Configs : List GameData) (document : Document)
    (gamename : String) (ModuleHandlers : List ModuleHandlerData) (target : Nat)
    (targetgame : GameData) (before after : List Property) (fromName : String)
    (htarget : (loadConfigs Configs document)[target]? = some targetgame)
    (hname : targetgame.Name = gamename)
    (hfirst : ∀ i game, i < target → (loadConfigs Configs document)[i]? = some game →
      game.Name ≠ gamename)
    (hprops : targetgame.Properties = before ++ ("Inherit", ValueType.string fromName) :: after)
    (hbefore : "Inherit" ∉ propertyNames before)
    (hmissing : ∀ game ∈ loadConfigs Configs document, game.Name ≠ fromName) :
    (∃ Configs2, ResolveInherit (fuel + 1) (loadConfigs Configs document) target =
      some ⟨some Status.InheritTargetWrong, Configs2⟩) ∧
    StatusNames[Status.InheritTargetWrong.toNat]? = some "Inherit target not found" ∧
    ∃ r, SetupGame (fuel + 1) (some document) gamename Configs ModuleHandlers = some r ∧
      r.thrown = some Status.InheritTargetWrong ∧ r.calls = [] ∧
      r.ModuleHandlers = ModuleHandlers := by
  have hfind : findInherit targetgame.Properties =
      some (before, ValueType.string fromName, after) := by
    rw [hprops]; exact findInherit_split before after _ hbefore
  have hthrow := ResolveInherit_throw_of_head_ne fuel (loadConfigs Configs document) target
    targetgame before after fromName htarget hfind (by
      intro game hgame
      have hmem : game ∈ (loadConfigs Configs document).set target
          ⟨targetgame.Name, before ++ after⟩ := by
        cases hC : (loadConfigs Configs document).set target ⟨targetgame.Name, before ++ after⟩
          with
        | nil => simp [hC] at hgame
        | cons g rest =>
          simp only [hC, List.head?_cons, Option.mem_def, Option.some.injEq] at hgame
          simp [hgame]
      rcases List.mem_or_eq_of_mem_set hmem with h | h
      · exact hmissing game h
      · subst h
        exact hmissing targetgame (List.getElem?_mem htarget))
  refine ⟨⟨_, hthrow⟩, rfl, ?_⟩
  have hgame : findGame gamename (loadConfigs Configs document) = some target :=
    findGame_first gamename _ target ⟨targetgame, htarget, hname⟩ hfirst
  refine ⟨⟨some Status.InheritTargetWrong,
    (loadConfigs Configs document).set target ⟨targetgame.Name, before ++ after⟩,
    ModuleHandlers, []⟩, ?_, rfl, rfl, rfl⟩
  simp only [SetupGame, hgame, hthrow]

/-- Witness of C10: the document holds `P` and `M`, and `M` inherits the title
`Nowhere`. -/
theorem missing_inherit_target_witness :
    ((loadConfigs [] [("P", exampleParent.Properties), ("M", exampleOrphan.Properties)])[1]? =
        some exampleOrphan ∧
      exampleOrphan.Name = "M" ∧
      exampleOrphan.Properties =
        [] ++ ("Inherit", ValueType.string "Nowhere") :: [("X", ValueType.number 1)] ∧
      "Inherit" ∉ propertyNames [] ∧
      ∀ game ∈ loadConfigs [] [("P", exampleParent.Properties), ("M", exampleOrphan.Properties)],
        game.Name ≠ "Nowhere") ∧
    ((∃ Configs2, ResolveInherit (0 + 1)
        (loadConfigs [] [("P", exampleParent.Properties), ("M", exampleOrphan.Properties)]) 1 =
      some ⟨some Status.InheritTargetWrong, Configs2⟩) ∧
    StatusNames[Status.InheritTargetWrong.toNat]? = some "Inherit target not found" ∧
    ∃ r, SetupGame (0 + 1)
        (some [("P", exampleParent.Properties), ("M", exampleOrphan.Properties)]) "M" []
        [⟨"X", fun _ _ => true⟩] = some r ∧
      r.thrown = some Status.InheritTargetWrong ∧ r.calls = [] ∧
      r.ModuleHandlers = [⟨"X", fun _ _ => true⟩]) :=
  have hmissing : ∀ game ∈
      loadConfigs [] [("P", exampleParent.Properties), ("M", exampleOrphan.Properties)],
      game.Name ≠ "Nowhere" := by
    intro game hg
    simp only [loadConfigs, List.nil_append, List.map_cons, List.map_nil, List.mem_cons,
      List.mem_singleton, List.not_mem_nil, or_false] at hg
    rcases hg with rfl | rfl <;> decide
  ⟨⟨rfl, rfl, rfl, by decide, hmissing⟩,
    missing_inherit_target 0 [] [("P", exampleParent.Properties), ("M", exampleOrphan.Properties)]
      "M" [⟨"X", fun _ _ => true⟩] 1 exampleOrphan [] [("X", ValueType.number 1)] "Nowhere"
      rfl rfl
      (fun i game hi hg => by
        have hi0 : i = 0 := by omega
        subst hi0
        have hg2 : (⟨"P", exampleParent.Properties⟩ : GameData) = game := by
          simpa [loadConfigs] using hg
        subst hg2
        decide)
      rfl (by decide) hmissing⟩

end Config


/-! ## Dispatch: lemmas and results -/

namespace Config

theorem CallHandlersLoop_eq (ModuleHandlers : List ModuleHandlerData) :
    ∀ (props : List Property) (calls : List (String × ValueType)),
      CallHandlersLoop ModuleHandlers props calls =
        ⟨if (dispatchCandidates ModuleHandlers props).all (fun c => c.2.2) then none
          else some Status.CouldNotCreateModule,
         calls ++ (((dispatchCandidates ModuleHandlers props).takeWhile fun c => c.2.2) ++
           ((dispatchCandidates ModuleHandlers props).dropWhile fun c => c.2.2).take 1).map
             fun c => (c.1, c.2.1)⟩ := by
  intro props
  induction props with
  | nil => intro calls; simp [CallHandlersLoop, dispatchCandidates]
  | cons prop props ih =>
    intro calls
    cases hfind : ModuleHandlers.find? fun handler => prop.1 == handler.Name with
    | none =>
      have hc : dispatchCandidates ModuleHandlers (prop :: props) =
          dispatchCandidates ModuleHandlers props := by
        simp [dispatchCandidates, List.filterMap_cons, hfind]
      rw [hc, CallHandlersLoop]
      simp only [hfind]
      exact ih calls
    | some handler =>
      have hc : dispatchCandidates ModuleHandlers (prop :: props) =
          (handler.Name, prop.2, handler.Function handler.Name prop.2) ::
            dispatchCandidates ModuleHandlers props := by
        simp [dispatchCandidates, List.filterMap_cons, hfind]
      rw [hc, CallHandlersLoop]
      simp only [hfind]
      cases hres : handler.Function handler.Name prop.2 with
      | false => simp [List.takeWhile, List.dropWhile, hres]
      | true =>
        rw [if_neg (by simp), ih]
        simp only [List.takeWhile, List.dropWhile, hres, List.all_cons, Bool.true_and,
          List.cons_append, List.map_cons, List.append_assoc, List.singleton_append,
          List.nil_append]

theorem SetupGame_handlers (fuel : Nat) (file : Option Document) (gamename : String)
    (Configs : List GameData) (ModuleHandlers : List ModuleHandlerData) (r : SetupResult)
    (hrun : SetupGame fuel file gamename Configs ModuleHandlers = some r) :
    (r.thrown = none → r.ModuleHandlers = []) ∧
    (r.thrown ≠ none → r.ModuleHandlers = ModuleHandlers) := by
  unfold SetupGame at hrun
  split at hrun
  · simp only [Option.some.injEq] at hrun
    subst hrun
    simp
  · simp only at hrun
    split at hrun
    · simp only [Option.some.injEq] at hrun
      subst hrun
      simp
    · split at hrun
      · simp at hrun
      · simp only [Option.some.injEq] at hrun
        subst hrun
        simp
      · split at hrun
        · simp at hrun
        · split at hrun
          · simp only [Option.some.injEq] at hrun
            subst hrun
            simp
          · simp only [Option.some.injEq] at hrun
            subst hrun
            simp

/-- C11. The handler invocations of `CallHandlers` are, in property order, the
calls of the first registered handler of each property that has one (a
property without handler invokes nothing), up to and including the first call
that returns false; `CallHandlers` throws `CouldNotCreateModule` exactly when
such a call exists and otherwise succeeds. -/
theorem CallHandlers_dispatch_order (ModuleHandlers : List ModuleHandlerData) (game : GameData) :
    (CallHandlers ModuleHandlers game).calls =
      (((dispatchCandidates ModuleHandlers game.Properties).takeWhile fun c => c.2.2) ++
        ((dispatchCandidates ModuleHandlers game.Properties).dropWhile fun c => c.2.2).take 1).map
          (fun c => (c.1, c.2.1)) ∧
    (CallHandlers ModuleHandlers game).thrown =
      (if (dispatchCandidates ModuleHandlers game.Properties).all (fun c => c.2.2) then none
        else some Status.CouldNotCreateModule) := by
  rw [CallHandlers, CallHandlersLoop_eq]
  simp

/-- C12, as stated, fails: the handler `H` reports failure for the property
`H` of the title `G`; `SetupGame` throws `CouldNotCreateModule` and the handler
list still holds `H`. -/
theorem SetupGame_failed_dispatch_keeps_handlers :
    ∃ r, SetupGame 1 (some [("G", [("H", ValueType.null)])]) "G" []
        [⟨"H", fun _ _ => false⟩] = some r ∧
      r.thrown = some Status.CouldNotCreateModule ∧
      r.calls.map (fun c => c.1) = ["H"] ∧
      r.ModuleHandlers.map (fun handler => handler.Name) = ["H"] ∧
      r.ModuleHandlers ≠ [] :=
  ⟨_, rfl, rfl, rfl, rfl, by simp⟩

/-- C12, amended. When `SetupGame` ends without failure, every invoked handler
having succeeded, the module handler list is empty; when it ends with a
failure, such as `CouldNotCreateModule` from dispatch, the list is as it was on
entry. -/
theorem SetupGame_handlers_after_dispatch (fuel : Nat) (file : Option Document)
    (gamename : String) (Configs : List GameData) (ModuleHandlers : List ModuleHandlerData)
    (r : SetupResult)
    (hrun : SetupGame fuel file gamename Configs ModuleHandlers = some r) :
    (r.thrown = none → r.ModuleHandlers = []) ∧
    (r.thrown ≠ none → r.ModuleHandlers = ModuleHandlers) :=
  SetupGame_handlers fuel file gamename Configs ModuleHandlers r hrun

/-- Witness of C12 (amended): the handler `H` succeeds for the property `H` of
the title `G`, and the handler list ends empty. -/
theorem SetupGame_handlers_after_dispatch_witness :
    SetupGame 1 (some [("G", [("H", ValueType.null)])]) "G" [] [⟨"H", fun _ _ => true⟩] =
      some ⟨none, [⟨"G", [("H", ValueType.null)]⟩], [], [("H", ValueType.null)]⟩ ∧
    (((⟨none, [⟨"G", [("H", ValueType.null)]⟩], [], [("H", ValueType.null)]⟩ :
        SetupResult).thrown = none →
      (⟨none, [⟨"G", [("H", ValueType.null)]⟩], [], [("H", ValueType.null)]⟩ :
        SetupResult).ModuleHandlers = []) ∧
    ((⟨none, [⟨"G", [("H", ValueType.null)]⟩], [], [("H", ValueType.null)]⟩ :
        SetupResult).thrown ≠ none →
      (⟨none, [⟨"G", [("H", ValueType.null)]⟩], [], [("H", ValueType.null)]⟩ :
        SetupResult).ModuleHandlers = [⟨"H", fun _ _ => true⟩])) :=
  ⟨rfl, SetupGame_handlers_after_dispatch 1 (some [("G", [("H", ValueType.null)])]) "G" []
    [⟨"H", fun _ _ => true⟩] _ rfl⟩

end Config


/-! ## Inheritance resolution: invariants -/

namespace Config

theorem findInherit_some (props : List Property) :
    ∀ before value after, findInherit props = some (before, value, after) →
      props = before ++ ("Inherit", value) :: after ∧ "Inherit" ∉ propertyNames before := by
  induction props with
  | nil => intro b v a h; simp [findInherit] at h
  | cons it rest ih =>
    intro b v a h
    by_cases hit : it.1 = "Inherit"
    · simp only [findInherit, hit, beq_self_eq_true, if_true, Option.some.injEq,
        Prod.mk.injEq] at h
      obtain ⟨rfl, rfl, rfl⟩ := h
      refine ⟨?_, by simp [propertyNames]⟩
      simp only [List.nil_append, List.cons.injEq, and_true]
      exact Prod.ext hit rfl
    · have h1 : (it.1 == "Inherit") = false := by simpa using hit
      simp only [findInherit, h1, Bool.false_eq_true, if_false] at h
      cases hrest : findInherit rest with
      | none => simp [hrest] at h
      | some x =>
        obtain ⟨b2, v2, a2⟩ := x
        simp only [hrest, Option.some.injEq, Prod.mk.injEq] at h
        obtain ⟨rfl, rfl, rfl⟩ := h
        obtain ⟨h2, h3⟩ := ih b2 v2 a2 hrest
        refine ⟨by rw [h2]; simp, ?_⟩
        simp only [propertyNames, List.map_cons, List.mem_cons, not_or]
        exact ⟨fun e => hit e.symm, h3⟩

theorem ResolveInherit_not_string (fuel : Nat) (Configs : List GameData) (target : Nat)
    (targetgame : GameData) (before after : List Property) (value : ValueType)
    (htarget : Configs[target]? = some targetgame)
    (hfind : findInherit targetgame.Properties = some (before, value, after))
    (hvalue : value.IsString = false) :
    ResolveInherit (fuel + 1) Configs target = some ⟨none, Configs⟩ := by
  simp [ResolveInherit, htarget, hfind, hvalue]

theorem IsString_false_or (value : ValueType) :
    value.IsString = false ∨ ∃ s, value = ValueType.string s := by
  cases value <;> simp [ValueType.IsString]

/-- One call of `ResolveInherit`, by cases: the target has no `Inherit`
property, or its first one is no string, or the first candidate of the walk has
another name, or the first candidate is merged and the function calls itself. -/
theorem ResolveInherit_cases (Configs : List GameData) (target : Nat)
    (targetgame : GameData) (htarget : Configs[target]? = some targetgame) :
    (findInherit targetgame.Properties = none ∧
        ∀ fuel, ResolveInherit (fuel + 1) Configs target = some ⟨none, Configs⟩) ∨
    (∃ before value after, findInherit targetgame.Properties = some (before, value, after) ∧
        value.IsString = false ∧
        ∀ fuel, ResolveInherit (fuel + 1) Configs target = some ⟨none, Configs⟩) ∨
    (∃ before fromName after game,
        findInherit targetgame.Properties = some (before, ValueType.string fromName, after) ∧
        (Configs.set target ⟨targetgame.Name, before ++ after⟩).head? = some game ∧
        game.Name ≠ fromName ∧
        ∀ fuel, ResolveInherit (fuel + 1) Configs target =
          some ⟨some Status.InheritTargetWrong,
            Configs.set target ⟨targetgame.Name, before ++ after⟩⟩) ∨
    (∃ before fromName after game,
        findInherit targetgame.Properties = some (before, ValueType.string fromName, after) ∧
        (Configs.set target ⟨targetgame.Name, before ++ after⟩).head? = some game ∧
        game.Name = fromName ∧
        ∀ fuel, ResolveInherit (fuel + 1) Configs target =
          ResolveInherit fuel
            (Configs.set target ⟨targetgame.Name,
              before ++ after ++ firstSeen game.Properties (propertyNames (before ++ after))⟩)
            target) := by
  have hlen : target < Configs.length := (List.getElem?_eq_some.1 htarget).1
  cases hfind : findInherit targetgame.Properties with
  | none =>
    exact Or.inl ⟨rfl, fun fuel =>
      ResolveInherit_no_inherit fuel Configs target targetgame htarget hfind⟩
  | some x =>
    obtain ⟨before, value, after⟩ := x
    rcases IsString_false_or value with hv | ⟨fromName, rfl⟩
    · exact Or.inr (Or.inl ⟨before, value, after, rfl, hv, fun fuel =>
        ResolveInherit_not_string fuel Configs target targetgame before after value htarget hfind hv⟩)
    · have hstep := fun fuel =>
        ResolveInherit_string fuel Configs target targetgame before after fromName htarget hfind
      cases hC : Configs.set target ⟨targetgame.Name, before ++ after⟩ with
      | nil =>
        have h0 : (Configs.set target ⟨targetgame.Name, before ++ after⟩).length = 0 := by
          rw [hC]; rfl
        rw [List.length_set] at h0
        omega
      | cons game rest =>
        simp only [hC, inheritWalk_cons] at hstep
        by_cases hname : game.Name = fromName
        · refine Or.inr (Or.inr (Or.inr ⟨before, fromName, after, game, rfl, by rw [hC]; rfl,
            hname, fun fuel => ?_⟩))
          rw [hstep]
          simp only [hname, if_true, mergeProperties_eq]
          rw [← hC, List.set_set]
        · refine Or.inr (Or.inr (Or.inl ⟨before, fromName, after, game, rfl, by rw [hC]; rfl,
            hname, fun fuel => ?_⟩))
          rw [hstep]
          simp only [hname, if_false, hC]

theorem firstSeen_names_nodup (source : List Property) :
    ∀ seen, (propertyNames (firstSeen source seen)).Nodup := by
  induction source with
  | nil => intro seen; simp [firstSeen, propertyNames]
  | cons q qs ih =>
    intro seen
    by_cases hq : q.1 ∈ seen
    · simp only [firstSeen, hq, if_true]
      exact ih seen
    · simp only [firstSeen, hq, if_false, propertyNames, List.map_cons, List.nodup_cons]
      refine ⟨fun hmem => ?_, ih (q.1 :: seen)⟩
      obtain ⟨p, hp, he⟩ := List.mem_map.1 hmem
      exact (firstSeen_subset qs (q.1 :: seen) p hp).2 (by simp [he])

theorem merged_names_nodup (dest source : List Property) (h : (propertyNames dest).Nodup) :
    (propertyNames (dest ++ firstSeen source (propertyNames dest))).Nodup := by
  simp only [propertyNames, List.map_append]
  refine List.Nodup.append h (firstSeen_names_nodup source _) ?_
  intro x hx1 hx2
  obtain ⟨p, hp, he⟩ := List.mem_map.1 hx2
  exact (firstSeen_subset source _ p hp).2 (he ▸ hx1)

theorem erased_names_nodup (before after : List Property) (x : Property)
    (h : (propertyNames (before ++ x :: after)).Nodup) :
    (propertyNames (before ++ after)).Nodup := by
  simp only [propertyNames, List.map_append, List.map_cons] at h ⊢
  exact List.Nodup.sublist (List.Sublist.append_left (List.sublist_cons_self _ _) _) h

theorem ResolveInherit_names_nodup (fuel : Nat) :
    ∀ (Configs : List GameData) (target : Nat) (r : ResolveResult),
      ResolveInherit fuel Configs target = some r →
      (∀ targetgame, Configs[target]? = some targetgame →
        (propertyNames targetgame.Properties).Nodup) →
      ∀ resolved, r.Configs[target]? = some resolved →
        (propertyNames resolved.Properties).Nodup := by
  induction fuel with
  | zero => intro C t r h; simp [ResolveInherit] at h
  | succ fuel ih =>
    intro C t r hrun hnd resolved hres
    cases hT : C[t]? with
    | none => simp [ResolveInherit, hT] at hrun
    | some T =>
      have hlen : t < C.length := (List.getElem?_eq_some.1 hT).1
      rcases ResolveInherit_cases C t T hT with ⟨-, h⟩ | ⟨_, _, _, -, -, h⟩ |
        ⟨b, nm, a, g, hf, -, -, h⟩ | ⟨b, nm, a, g, hf, -, -, h⟩
      · rw [h fuel] at hrun
        simp only [Option.some.injEq] at hrun
        subst hrun
        exact hnd resolved hres
      · rw [h fuel] at hrun
        simp only [Option.some.injEq] at hrun
        subst hrun
        exact hnd resolved hres
      · rw [h fuel] at hrun
        simp only [Option.some.injEq] at hrun
        subst hrun
        simp only [List.getElem?_set_self hlen, Option.some.injEq] at hres
        subst hres
        have hp := (findInherit_some _ _ _ _ hf).1
        exact erased_names_nodup b a _ (hp ▸ hnd T hT)
      · rw [h fuel] at hrun
        have hp := (findInherit_some _ _ _ _ hf).1
        refine ih _ t r hrun (fun T2 hT2 => ?_) resolved hres
        simp only [List.getElem?_set_self hlen, Option.some.injEq] at hT2
        subst hT2
        exact merged_names_nodup _ _ (erased_names_nodup b a _ (hp ▸ hnd T hT))

theorem ResolveInherit_again (fuel : Nat) :
    ∀ (Configs : List GameData) (target : Nat) (r : ResolveResult),
      ResolveInherit fuel Configs target = some r → r.thrown = none →
      ∀ fuel2, ResolveInherit (fuel2 + 1) r.Configs target = some ⟨none, r.Configs⟩ := by
  induction fuel with
  | zero => intro C t r h; simp [ResolveInherit] at h
  | succ fuel ih =>
    intro C t r hrun hok fuel2
    cases hT : C[t]? with
    | none => simp [ResolveInherit, hT] at hrun
    | some T =>
      rcases ResolveInherit_cases C t T hT with ⟨hf, h⟩ | ⟨b, v, a, hf, hv, h⟩ |
        ⟨b, nm, a, g, hf, -, -, h⟩ | ⟨b, nm, a, g, hf, -, -, h⟩
      · rw [h fuel] at hrun
        simp only [Option.some.injEq] at hrun
        subst hrun
        exact ResolveInherit_no_inherit fuel2 C t T hT hf
      · rw [h fuel] at hrun
        simp only [Option.some.injEq] at hrun
        subst hrun
        exact ResolveInherit_not_string fuel2 C t T b a v hT hf hv
      · rw [h fuel] at hrun
        simp only [Option.some.injEq] at hrun
        subst hrun
        simp at hok
      · rw [h fuel] at hrun
        exact ih _ t r hrun hok fuel2


/-! ## Inheritance resolution: further results -/

/-- C13, as stated, fails: the title `D` holds the name `X` twice and has no
`Inherit` property; `ResolveInherit` completes and both properties remain. -/
theorem ResolveInherit_keeps_own_duplicates :
    ResolveInherit 1 [exampleDuplicate] 0 = some ⟨none, [exampleDuplicate]⟩ ∧
    ¬ (propertyNames exampleDuplicate.Properties).Nodup := by
  refine ⟨rfl, by decide⟩

/-- C13, amended. For a target entry whose own property names are pairwise
distinct, the entry that `ResolveInherit` leaves, on completion without failure
as well as on failure, has no two properties of the same name: the merge adds
no name that is present. -/
theorem ResolveInherit_no_new_duplicates (fuel : Nat) (Configs : List GameData) (target : Nat)
    (targetgame resolved : GameData) (r : ResolveResult)
    (htarget : Configs[target]? = some targetgame)
    (hdistinct : (propertyNames targetgame.Properties).Nodup)
    (hrun : ResolveInherit fuel Configs target = some r)
    (hresolved : r.Configs[target]? = some resolved) :
    (propertyNames resolved.Properties).Nodup :=
  ResolveInherit_names_nodup fuel Configs target r hrun
    (fun T hT => by
      have hTT : T = targetgame := by
        rw [htarget] at hT
        exact (Option.some.inj hT).symm
      exact hTT ▸ hdistinct)
    resolved hresolved

/-- Witness of C13 (amended): `T` with `X`, `Inherit`, `Z` inherits `P` with
`X`, `Y` and ends with the distinct names `X`, `Z`, `Y`. -/
theorem ResolveInherit_no_new_duplicates_witness :
    ([exampleParent, exampleChild][1]? = some exampleChild ∧
      (propertyNames exampleChild.Properties).Nodup ∧
      ResolveInherit 2 [exampleParent, exampleChild] 1 =
        some ⟨none, [exampleParent, exampleResolved]⟩ ∧
      [exampleParent, exampleResolved][1]? = some exampleResolved) ∧
    (propertyNames exampleResolved.Properties).Nodup :=
  ⟨⟨rfl, by decide, rfl, rfl⟩,
    ResolveInherit_no_new_duplicates 2 [exampleParent, exampleChild] 1 exampleChild
      exampleResolved ⟨none, [exampleParent, exampleResolved]⟩ rfl (by decide) rfl rfl⟩

/-- C18. When `ResolveInherit` completes without failure, a second
`ResolveInherit` on the resulting entry, with any fuel of at least one call,
completes without failure and changes nothing: the target keeps its property
list, names, values and order, as does every other entry. -/
theorem ResolveInherit_idempotent (fuel : Nat) (Configs : List GameData) (target : Nat)
    (r : ResolveResult) (hrun : ResolveInherit fuel Configs target = some r)
    (hok : r.thrown = none) (fuel2 : Nat) :
    ResolveInherit (fuel2 + 1) r.Configs target = some ⟨none, r.Configs⟩ :=
  ResolveInherit_again fuel Configs target r hrun hok fuel2

/-- Witness of C18: resolving `T` over `[P, T]` and resolving it again. -/
theorem ResolveInherit_idempotent_witness :
    (ResolveInherit 2 [exampleParent, exampleChild] 1 =
        some ⟨none, [exampleParent, exampleResolved]⟩ ∧
      (⟨none, [exampleParent, exampleResolved]⟩ : ResolveResult).thrown = none) ∧
    ResolveInherit (0 + 1) [exampleParent, exampleResolved] 1 =
      some ⟨none, [exampleParent, exampleResolved]⟩ :=
  ⟨⟨rfl, rfl⟩,
    ResolveInherit_idempotent 2 [exampleParent, exampleChild] 1
      ⟨none, [exampleParent, exampleResolved]⟩ rfl rfl 0⟩

/-- C19. When the first property named `Inherit` of the target has a value that
is no string, `ResolveInherit` returns without failure and leaves `Configs` as
it was: the property list of the target is unchanged, the `Inherit` property
included, and nothing is merged in. -/
theorem ResolveInherit_non_string_noop (fuel : Nat) (Configs : List GameData) (target : Nat)
    (targetgame : GameData) (before after : List Property) (value : ValueType)
    (htarget : Configs[target]? = some targetgame)
    (hprops : targetgame.Properties = before ++ ("Inherit", value) :: after)
    (hbefore : "Inherit" ∉ propertyNames before)
    (hvalue : value.IsString = false) :
    ResolveInherit (fuel + 1) Configs target = some ⟨none, Configs⟩ ∧
    ("Inherit", value) ∈ targetgame.Properties :=
  ⟨ResolveInherit_not_string fuel Configs target targetgame before after value htarget
      (by rw [hprops]; exact findInherit_split before after value hbefore) hvalue,
    by rw [hprops]; simp⟩

/-- Witness of C19: the title `N`, whose `Inherit` is the number 5, loaded
behind `P`. -/
theorem ResolveInherit_non_string_noop_witness :
    ([exampleParent, exampleNonString][1]? = some exampleNonString ∧
      exampleNonString.Properties = [("X", ValueType.number 1)] ++
        ("Inherit", ValueType.number 5) :: [("Y", ValueType.number 2)] ∧
      "Inherit" ∉ propertyNames [("X", ValueType.number 1)] ∧
      (ValueType.number 5).IsString = false) ∧
    (ResolveInherit (0 + 1) [exampleParent, exampleNonString] 1 =
        some ⟨none, [exampleParent, exampleNonString]⟩ ∧
      ("Inherit", ValueType.number 5) ∈ exampleNonString.Properties) :=
  ⟨⟨rfl, rfl, by decide, rfl⟩,
    ResolveInherit_non_string_noop 0 [exampleParent, exampleNonString] 1 exampleNonString
      [("X", ValueType.number 1)] [("Y", ValueType.number 2)] (ValueType.number 5)
      rfl rfl (by decide) rfl⟩

end Config


/-! ## Key-value registry, address resolver and startup list -/

open Config.Registry ModuleShared.Registry

theorem registryOf_eq_aux (ops : List (String × Nat)) :
    ∀ KeyValues : List DataType,
      ops.foldl (fun KeyValues op => SetKeyValue KeyValues op.1 op.2) KeyValues =
        KeyValues ++ ops.map fun op => ⟨op.1, TypeIndex.UInt32, op.2⟩ := by
  induction ops with
  | nil => intro KeyValues; simp
  | cons op ops ih =>
    intro KeyValues
    rw [List.foldl_cons, ih]
    simp [SetKeyValue, InsertKeyValue, DataType.SetValue]

theorem registryOf_eq (ops : List (String × Nat)) :
    registryOf ops = ops.map fun op => ⟨op.1, TypeIndex.UInt32, op.2⟩ := by
  rw [registryOf, registryOf_eq_aux]
  simp

theorem GetKeyValueLoop_absent (name : String) (value : Option Nat) (KeyValues : List DataType)
    (h : ∀ e ∈ KeyValues, e.Name ≠ name) :
    GetKeyValueLoop name value KeyValues = (false, value) := by
  induction KeyValues with
  | nil => rfl
  | cons e rest ih =>
    have he : (e.Name == name) = false := by simpa using h e (by simp)
    simp only [GetKeyValueLoop, he, Bool.false_eq_true, if_false]
    exact ih fun x hx => h x (by simp [hx])

theorem GetKeyValueLoop_inserted (name : String) (out : Nat) (ops : List (String × Nat))
    (rest : List DataType) (v : Nat) :
    GetKeyValueLoop name (some out)
        ((ops.map fun op => (⟨op.1, TypeIndex.UInt32, op.2⟩ : DataType)) ++
          ⟨name, TypeIndex.UInt32, v⟩ :: rest) =
      (true, some (match ops.find? fun op => op.1 == name with
        | some op => op.2
        | none => v)) := by
  induction ops with
  | nil =>
    simp [GetKeyValueLoop, DataType.GetActiveValue, TypeReturn.toBool, TypeReturn.Get]
  | cons op ops ih =>
    by_cases hop : op.1 = name
    · simp [GetKeyValueLoop, DataType.GetActiveValue, TypeReturn.toBool, TypeReturn.Get, hop]
    · have h1 : (op.1 == name) = false := by simpa using hop
      simp only [List.map_cons, List.cons_append, GetKeyValueLoop, h1, Bool.false_eq_true,
        if_false, List.find?_cons]
      exact ih

theorem startupListOf_eq_aux (entries : List StartupFuncData) :
    ∀ acc : List StartupFuncData,
      entries.foldl AddPluginStartupFunction acc = acc ++ entries := by
  induction entries with
  | nil => intro acc; simp
  | cons e entries ih =>
    intro acc
    rw [List.foldl_cons, ih]
    simp [AddPluginStartupFunction]

theorem startupListOf_eq (entries : List StartupFuncData) : startupListOf entries = entries := by
  rw [startupListOf, startupListOf_eq_aux]
  simp

theorem CallPluginStartupFunctionsLoop_all (entries : List StartupFuncData)
    (h : ∀ e ∈ entries, e.Function () = true) :
    ∀ calls, CallPluginStartupFunctionsLoop entries calls =
      (none, calls ++ entries.map fun e => e.Name) := by
  induction entries with
  | nil => intro calls; simp [CallPluginStartupFunctionsLoop]
  | cons e entries ih =>
    intro calls
    have he : e.Function () = true := h e (by simp)
    simp only [CallPluginStartupFunctionsLoop, he, Bool.not_true, Bool.false_eq_true, if_false]
    rw [ih fun x hx => h x (by simp [hx])]
    simp

theorem CallPluginStartupFunctionsLoop_fail (pre post : List StartupFuncData)
    (failing : StartupFuncData) (hpre : ∀ e ∈ pre, e.Function () = true)
    (hfail : failing.Function () = false) :
    ∀ calls, CallPluginStartupFunctionsLoop (pre ++ failing :: post) calls =
      (some failing.Name, calls ++ (pre ++ [failing]).map fun e => e.Name) := by
  induction pre with
  | nil => intro calls; simp [CallPluginStartupFunctionsLoop, hfail]
  | cons e pre ih =>
    intro calls
    have he : e.Function () = true := hpre e (by simp)
    rw [List.cons_append, CallPluginStartupFunctionsLoop]
    simp only [he, Bool.not_true, Bool.false_eq_true, if_false]
    rw [ih fun x hx => hpre x (by simp [hx])]
    simp

/-- C15. In the registry that any sequence `ops` of `SetKeyValue` calls has
built, after `SetKeyValue(n, v)` the call `GetKeyValue(n, &out)` returns true
and `out` is the value of the earliest entry named `n`, which is `v` when `ops`
inserted none; `GetKeyValue` of a name `m` never inserted returns false and
leaves `out`; and `GetKeyValue` leaves the entries of the registry as they
are. -/
theorem SetKeyValue_GetKeyValue_round_trip (ops : List (String × Nat)) (n m : String)
    (v out : Nat) (value : Option Nat) (hm : m ∉ ops.map fun op => op.1) :
    ((GetKeyValue (SetKeyValue (registryOf ops) n v) n (some out)).found = true ∧
      (GetKeyValue (SetKeyValue (registryOf ops) n v) n (some out)).value =
        some (match ops.find? fun op => op.1 == n with
          | some op => op.2
          | none => v)) ∧
    ((GetKeyValue (registryOf ops) m (some out)).found = false ∧
      (GetKeyValue (registryOf ops) m (some out)).value = some out) ∧
    (GetKeyValue (SetKeyValue (registryOf ops) n v) n value).KeyValues =
      SetKeyValue (registryOf ops) n v := by
  refine ⟨?_, ?_, rfl⟩
  · have h := GetKeyValueLoop_inserted n out ops [] v
    simp only [GetKeyValue, SetKeyValue, InsertKeyValue, DataType.SetValue, if_true,
      registryOf_eq, h, and_self]
  · have h := GetKeyValueLoop_absent m (some out) (registryOf ops) (by
      rw [registryOf_eq]
      intro e he
      obtain ⟨op, hop, rfl⟩ := List.mem_map.1 he
      exact fun e2 => hm (List.mem_map.2 ⟨op, hop, e2⟩))
    simp only [GetKeyValue, h, and_self]

/-- Witness of C15: after `a = 1`, `b = 2`, `a = 3` the call `SetKeyValue(a, 4)`
is made; `a` reads 1 and `c` is not found. -/
theorem SetKeyValue_GetKeyValue_round_trip_witness :
    ("c" ∉ [("a", 1), ("b", 2), ("a", 3)].map fun op => op.1) ∧
    (((GetKeyValue (SetKeyValue (registryOf [("a", 1), ("b", 2), ("a", 3)]) "a" 4) "a"
          (some 9)).found = true ∧
      (GetKeyValue (SetKeyValue (registryOf [("a", 1), ("b", 2), ("a", 3)]) "a" 4) "a"
          (some 9)).value =
        some (match [("a", 1), ("b", 2), ("a", 3)].find? fun op => op.1 == "a" with
          | some op => op.2
          | none => 4)) ∧
    ((GetKeyValue (registryOf [("a", 1), ("b", 2), ("a", 3)]) "c" (some 9)).found = false ∧
      (GetKeyValue (registryOf [("a", 1), ("b", 2), ("a", 3)]) "c" (some 9)).value = some 9) ∧
    (GetKeyValue (SetKeyValue (registryOf [("a", 1), ("b", 2), ("a", 3)]) "a" 4) "a"
        none).KeyValues =
      SetKeyValue (registryOf [("a", 1), ("b", 2), ("a", 3)]) "a" 4) :=
  ⟨by decide,
    SetKeyValue_GetKeyValue_round_trip [("a", 1), ("b", 2), ("a", 3)] "a" "c" 4 9 none
      (by decide)⟩

/-- C16. A descriptor object without `Pattern` member resolves to `nullptr`
when `VTIndex` is absent, or `VTPtrName` is absent, or `VTPtrName` is a string
that names no entry of the registry; for a descriptor object with a `Pattern`
member the result is that of `GetAddressFromJsonPattern`, whatever its
`VTIndex` and `VTPtrName` members. -/
theorem GetAddressFromJsonFlex_nothing_to_resolve (env : Environment)
    (members withPattern : List (String × ValueType))
    (hno : HasMember members "Pattern" = false)
    (hnothing : HasMember members "VTIndex" = false ∨ HasMember members "VTPtrName" = false ∨
      ∃ name, FindMember members "VTPtrName" = some (ValueType.string name) ∧
        ∀ e ∈ env.KeyValues, e.Name ≠ name)
    (hpattern : HasMember withPattern "Pattern" = true) :
    GetAddressFromJsonFlex env (ValueType.object members) = some none ∧
    GetAddressFromJsonFlex env (ValueType.object withPattern) =
      GetAddressFromJsonPattern env withPattern := by
  refine ⟨?_, by simp [GetAddressFromJsonFlex, hpattern]⟩
  simp only [GetAddressFromJsonFlex, hno, Bool.false_eq_true, if_false]
  by_cases h1 : HasMember members "VTIndex" = true
  · by_cases h2 : HasMember members "VTPtrName" = true
    · rcases hnothing with h | h | ⟨name, hname, habsent⟩
      · simp [h] at h1
      · simp [h] at h2
      · have hloop := GetKeyValueLoop_absent name (some env.ptrnum) env.KeyValues habsent
        simp [h1, h2, GetVirtualAddressFromJson, hname, GetKeyValue, hloop]
    · simp [h1, h2]
  · simp [h1]

/-- Witness of C16: a descriptor with `VTIndex` and a `VTPtrName` that the
registry does not hold, and a descriptor with `Pattern` and `VTIndex`. -/
theorem GetAddressFromJsonFlex_nothing_to_resolve_witness :
    (HasMember [("VTIndex", ValueType.number 3), ("VTPtrName", ValueType.string "Engine")]
        "Pattern" = false ∧
      HasMember [("Pattern", ValueType.string "55 8B"), ("Module", ValueType.string "engine.dll"),
        ("VTIndex", ValueType.number 3)] "Pattern" = true) ∧
    (GetAddressFromJsonFlex ⟨registryOf [("Client", 4096)], fun _ => 0, 0, fun _ _ _ => some 4660,
        fun a => a⟩
        (ValueType.object
          [("VTIndex", ValueType.number 3), ("VTPtrName", ValueType.string "Engine")]) =
      some none ∧
    GetAddressFromJsonFlex ⟨registryOf [("Client", 4096)], fun _ => 0, 0, fun _ _ _ => some 4660,
        fun a => a⟩
        (ValueType.object
          [("Pattern", ValueType.string "55 8B"), ("Module", ValueType.string "engine.dll"),
            ("VTIndex", ValueType.number 3)]) =
      GetAddressFromJsonPattern ⟨registryOf [("Client", 4096)], fun _ => 0, 0,
        fun _ _ _ => some 4660, fun a => a⟩
        [("Pattern", ValueType.string "55 8B"), ("Module", ValueType.string "engine.dll"),
          ("VTIndex", ValueType.number 3)]) :=
  ⟨⟨by decide, by decide⟩,
    GetAddressFromJsonFlex_nothing_to_resolve
      ⟨registryOf [("Client", 4096)], fun _ => 0, 0, fun _ _ _ => some 4660, fun a => a⟩
      [("VTIndex", ValueType.number 3), ("VTPtrName", ValueType.string "Engine")]
      [("Pattern", ValueType.string "55 8B"), ("Module", ValueType.string "engine.dll"),
        ("VTIndex", ValueType.number 3)]
      (by decide)
      (Or.inr (Or.inr ⟨"Engine", rfl, by
        intro e he
        simp only [registryOf_eq, List.map_cons, List.map_nil, List.mem_singleton] at he
        subst he
        decide⟩))
      (by decide)⟩

/-- C17. For entries registered with `AddPluginStartupFunction` whose functions
all succeed, `CallPluginStartupFunctions` invokes each once, in registration
order, and leaves the startup list empty, so that a second call invokes
nothing; when the function of an entry fails after those of the entries `pre`
before it succeeded, the call invokes `pre` and that entry, throws its name and
invokes no later entry. -/
theorem CallPluginStartupFunctions_order (entries pre post : List StartupFuncData)
    (failing : StartupFuncData) (hall : ∀ e ∈ entries, e.Function () = true)
    (hpre : ∀ e ∈ pre, e.Function () = true) (hfail : failing.Function () = false) :
    ((CallPluginStartupFunctions (startupListOf entries)).thrown = none ∧
      (CallPluginStartupFunctions (startupListOf entries)).calls = entries.map (fun e => e.Name) ∧
      (CallPluginStartupFunctions (startupListOf entries)).StartupFunctions = [] ∧
      (CallPluginStartupFunctions
        (CallPluginStartupFunctions (startupListOf entries)).StartupFunctions).calls = []) ∧
    ((CallPluginStartupFunctions (startupListOf (pre ++ failing :: post))).thrown =
        some failing.Name ∧
      (CallPluginStartupFunctions (startupListOf (pre ++ failing :: post))).calls =
        (pre ++ [failing]).map fun e => e.Name) := by
  constructor
  · rw [startupListOf_eq]
    cases entries with
    | nil => simp [CallPluginStartupFunctions]
    | cons e entries =>
      simp [CallPluginStartupFunctions, CallPluginStartupFunctionsLoop_all (e :: entries) hall]
  · rw [startupListOf_eq]
    have hne : (pre ++ failing :: post).isEmpty = false := by
      cases pre <;> rfl
    simp [CallPluginStartupFunctions, hne,
      CallPluginStartupFunctionsLoop_fail pre post failing hpre hfail]


/-- Witness of C17: the entries `a`, `b` succeed; in `a`, `b`, `c` the entry `b`
fails. -/
theorem CallPluginStartupFunctions_order_witness :
    ((∀ e ∈ [startupOk "a", startupOk "b"], e.Function () = true) ∧
      (∀ e ∈ [startupOk "a"], e.Function () = true) ∧
      (startupFail "b").Function () = false) ∧
    (((CallPluginStartupFunctions (startupListOf [startupOk "a", startupOk "b"])).thrown = none ∧
      (CallPluginStartupFunctions (startupListOf [startupOk "a", startupOk "b"])).calls =
        [startupOk "a", startupOk "b"].map (fun e => e.Name) ∧
      (CallPluginStartupFunctions
        (startupListOf [startupOk "a", startupOk "b"])).StartupFunctions = [] ∧
      (CallPluginStartupFunctions
        (CallPluginStartupFunctions
          (startupListOf [startupOk "a", startupOk "b"])).StartupFunctions).calls = []) ∧
    ((CallPluginStartupFunctions
        (startupListOf ([startupOk "a"] ++ startupFail "b" :: [startupOk "c"]))).thrown =
        some (startupFail "b").Name ∧
      (CallPluginStartupFunctions
        (startupListOf ([startupOk "a"] ++ startupFail "b" :: [startupOk "c"]))).calls =
        ([startupOk "a"] ++ [startupFail "b"]).map fun e => e.Name)) :=
  have h1 : ∀ e ∈ [startupOk "a", startupOk "b"], e.Function () = true := by
    intro e he
    simp only [List.mem_cons, List.mem_singleton, List.not_mem_nil, or_false] at he
    rcases he with rfl | rfl <;> rfl
  have h2 : ∀ e ∈ [startupOk "a"], e.Function () = true := by
    intro e he
    simp only [List.mem_singleton] at he
    subst he
    rfl
  ⟨⟨h1, h2, rfl⟩,
    CallPluginStartupFunctions_order [startupOk "a", startupOk "b"] [startupOk "a"]
      [startupOk "c"] (startupFail "b") h1 h2 rfl⟩


/-! ## Inheritance resolution: termination -/

namespace Config

theorem findInherit_eq_none (props : List Property) (h : findInherit props = none) :
    "Inherit" ∉ propertyNames props := by
  induction props with
  | nil => simp [propertyNames]
  | cons it rest ih =>
    by_cases hit : it.1 = "Inherit"
    · simp [findInherit, hit] at h
    · have h1 : (it.1 == "Inherit") = false := by simpa using hit
      simp only [findInherit, h1, Bool.false_eq_true, if_false] at h
      cases hrest : findInherit rest with
      | none =>
        simp only [propertyNames, List.map_cons, List.mem_cons, not_or]
        exact ⟨fun e => hit e.symm, ih hrest⟩
      | some x => simp [hrest] at h

theorem countInherit_split (before after : List Property) (value : ValueType) :
    countInherit (before ++ ("Inherit", value) :: after) = countInherit (before ++ after) + 1 := by
  simp [countInherit, propertyNames, List.count_append, List.count_cons_self]
  omega

theorem countInherit_pos_iff (props : List Property) :
    0 < countInherit props ↔ "Inherit" ∈ propertyNames props := by
  simp [countInherit, List.count_pos_iff]

theorem countInherit_merged (dest source : List Property)
    (h : "Inherit" ∈ propertyNames dest) :
    countInherit (dest ++ firstSeen source (propertyNames dest)) = countInherit dest := by
  have h0 : countInherit (firstSeen source (propertyNames dest)) = 0 := by
    by_contra hne
    have hpos : 0 < countInherit (firstSeen source (propertyNames dest)) := by omega
    obtain ⟨p, hp, he⟩ := List.mem_map.1 ((countInherit_pos_iff _).1 hpos)
    exact (firstSeen_subset source _ p hp).2 (he ▸ h)
  have happ : countInherit (dest ++ firstSeen source (propertyNames dest)) =
      countInherit dest + countInherit (firstSeen source (propertyNames dest)) := by
    simp [countInherit, propertyNames, List.count_append]
  rw [happ, h0, Nat.add_zero]

theorem firstSeen_all_seen (source : List Property) (seen : List String)
    (h : ∀ p ∈ source, p.1 ∈ seen) : firstSeen source seen = [] := by
  induction source with
  | nil => rfl
  | cons q qs ih =>
    have hq : q.1 ∈ seen := h q (by simp)
    simp only [firstSeen, hq, if_true]
    exact ih fun p hp => h p (by simp [hp])

theorem findInherit_value_cons (it : Property) (rest : List Property) (hit : it.1 ≠ "Inherit") :
    (findInherit (it :: rest)).map (fun x => x.2.1) =
      (findInherit rest).map fun x => x.2.1 := by
  have h1 : (it.1 == "Inherit") = false := by simpa using hit
  simp only [findInherit, h1, Bool.false_eq_true, if_false]
  cases findInherit rest with
  | none => rfl
  | some x => rfl

theorem findInherit_value_append (dest rest : List Property)
    (h : "Inherit" ∉ propertyNames dest) :
    (findInherit (dest ++ rest)).map (fun x => x.2.1) =
      (findInherit rest).map fun x => x.2.1 := by
  induction dest with
  | nil => rfl
  | cons it dest ih =>
    simp only [propertyNames, List.map_cons, List.mem_cons, not_or] at h
    rw [List.cons_append, findInherit_value_cons it _ (fun e => h.1 e.symm)]
    exact ih h.2

theorem findInherit_value_firstSeen (source : List Property) :
    ∀ seen : List String, "Inherit" ∉ seen →
      (findInherit (firstSeen source seen)).map (fun x => x.2.1) =
        (findInherit source).map fun x => x.2.1 := by
  induction source with
  | nil => intro _ _; rfl
  | cons q qs ih =>
    intro seen hseen
    by_cases hq : q.1 = "Inherit"
    · obtain ⟨qn, qv⟩ := q
      simp only at hq
      subst hq
      simp [firstSeen, hseen, findInherit]
    · rw [findInherit_value_cons q qs hq]
      by_cases hin : q.1 ∈ seen
      · simp only [firstSeen, hin, if_true]
        exact ih seen hseen
      · simp only [firstSeen, hin, if_false]
        rw [findInherit_value_cons q _ hq]
        exact ih (q.1 :: seen) (by
          simp only [List.mem_cons, not_or]
          exact ⟨fun e => hq e.symm, hseen⟩)

theorem ResolveInherit_fuel_succ (fuel : Nat) :
    ∀ (Configs : List GameData) (target : Nat) (r : ResolveResult),
      ResolveInherit fuel Configs target = some r →
      ResolveInherit (fuel + 1) Configs target = some r := by
  induction fuel with
  | zero => intro C t r h; simp [ResolveInherit] at h
  | succ fuel ih =>
    intro C t r hrun
    cases hT : C[t]? with
    | none => simp [ResolveInherit, hT] at hrun
    | some T =>
      rcases ResolveInherit_cases C t T hT with ⟨-, h⟩ | ⟨_, _, _, -, -, h⟩ |
        ⟨_, _, _, _, -, -, -, h⟩ | ⟨_, _, _, _, -, -, -, h⟩
      · rw [h fuel] at hrun; rw [h (fuel + 1)]; exact hrun
      · rw [h fuel] at hrun; rw [h (fuel + 1)]; exact hrun
      · rw [h fuel] at hrun; rw [h (fuel + 1)]; exact hrun
      · rw [h fuel] at hrun; rw [h (fuel + 1)]; exact ih _ t r hrun

theorem ResolveInherit_fuel_add (fuel : Nat) (Configs : List GameData) (target : Nat)
    (r : ResolveResult) (h : ResolveInherit fuel Configs target = some r) :
    ∀ k, ResolveInherit (fuel + k) Configs target = some r := by
  intro k
  induction k with
  | zero => exact h
  | succ k ih => exact ResolveInherit_fuel_succ (fuel + k) Configs target r ih

theorem ResolveTerminates_step (Configs : List GameData) (target : Nat) (targetgame : GameData)
    (htarget : Configs[target]? = some targetgame)
    (hrec : ∀ before fromName after game,
      findInherit targetgame.Properties = some (before, ValueType.string fromName, after) →
      (Configs.set target ⟨targetgame.Name, before ++ after⟩).head? = some game →
      game.Name = fromName →
      ResolveTerminates
        (Configs.set target ⟨targetgame.Name,
          before ++ after ++ firstSeen game.Properties (propertyNames (before ++ after))⟩)
        target) :
    ResolveTerminates Configs target := by
  rcases ResolveInherit_cases Configs target targetgame htarget with ⟨-, h⟩ |
    ⟨_, _, _, -, -, h⟩ | ⟨_, _, _, _, -, -, -, h⟩ | ⟨b, nm, a, g, hf, hhead, hname, h⟩
  · exact ⟨1, _, h 0, Or.inl rfl⟩
  · exact ⟨1, _, h 0, Or.inl rfl⟩
  · exact ⟨1, _, h 0, Or.inr rfl⟩
  · obtain ⟨fuel, r, hr, hok⟩ := hrec b nm a g hf hhead hname
    exact ⟨fuel + 1, r, by rw [h fuel]; exact hr, hok⟩

theorem ResolveTerminates_first (n : Nat) :
    ∀ (Configs : List GameData) (targetgame : GameData),
      Configs[0]? = some targetgame → countInherit targetgame.Properties = n →
      ResolveTerminates Configs 0 := by
  induction n with
  | zero =>
    intro C T hT hcount
    refine ResolveTerminates_step C 0 T hT fun b nm a g hf _ _ => ?_
    have hp := (findInherit_some _ _ _ _ hf).1
    rw [hp, countInherit_split] at hcount
    omega
  | succ n ih =>
    intro C T hT hcount
    refine ResolveTerminates_step C 0 T hT fun b nm a g hf hhead _ => ?_
    have hp := (findInherit_some _ _ _ _ hf).1
    rw [hp, countInherit_split] at hcount
    cases C with
    | nil => simp at hT
    | cons g0 rest =>
      simp only [List.set_cons_zero, List.head?_cons, Option.some.injEq] at hhead
      subst hhead
      have hself : firstSeen (b ++ a) (propertyNames (b ++ a)) = [] :=
        firstSeen_all_seen _ _ fun p hp => List.mem_map_of_mem (fun p => p.1) hp
      simp only [hself, List.append_nil, List.set_cons_zero]
      exact ih _ ⟨T.Name, b ++ a⟩ (by simp) (by simpa using hcount)

theorem ResolveTerminates_later (parentgame : GameData) (k : Nat)
    (hparent : ∀ before after,
      findInherit parentgame.Properties ≠
        some (before, ValueType.string parentgame.Name, after))
    (n : Nat) :
    ∀ (rest : List GameData) (targetgame : GameData),
      rest[k]? = some targetgame → countInherit targetgame.Properties = n →
      ResolveTerminates (parentgame :: rest) (k + 1) := by
  induction n with
  | zero =>
    intro rest T hT hcount
    refine ResolveTerminates_step _ (k + 1) T (by simpa using hT) fun b nm a g hf _ _ => ?_
    have hp := (findInherit_some _ _ _ _ hf).1
    rw [hp, countInherit_split] at hcount
    omega
  | succ n ih =>
    intro rest T hT hcount
    have hk : k < rest.length := (List.getElem?_eq_some.1 hT).1
    refine ResolveTerminates_step _ (k + 1) T (by simpa using hT) fun b nm a g hf hhead hname => ?_
    have hp := (findInherit_some _ _ _ _ hf).1
    rw [hp, countInherit_split] at hcount
    simp only [List.set_cons_succ, List.head?_cons, Option.some.injEq] at hhead
    subst hhead
    simp only [List.set_cons_succ]
    by_cases hin : "Inherit" ∈ propertyNames (b ++ a)
    · refine ih _ ⟨T.Name, b ++ a ++ firstSeen parentgame.Properties (propertyNames (b ++ a))⟩
        (by simp [List.getElem?_set_self hk]) ?_
      rw [countInherit_merged _ _ hin]
      omega
    · refine ResolveTerminates_step _ (k + 1)
        ⟨T.Name, b ++ a ++ firstSeen parentgame.Properties (propertyNames (b ++ a))⟩
        (by simp [List.getElem?_set_self hk]) fun b2 nm2 a2 g2 hf2 hhead2 hname2 => ?_
      simp only [List.set_cons_succ, List.head?_cons, Option.some.injEq] at hhead2
      subst hhead2
      have hval := findInherit_value_append (b ++ a)
        (firstSeen parentgame.Properties (propertyNames (b ++ a))) hin
      rw [findInherit_value_firstSeen parentgame.Properties _ hin] at hval
      simp only at hf2
      rw [hf2] at hval
      cases hg : findInherit parentgame.Properties with
      | none => simp [hg] at hval
      | some x =>
        obtain ⟨pb, pv, pa⟩ := x
        simp only [hg, Option.map_some', Option.some.injEq] at hval
        exact absurd (by rw [hg, ← hval, hname2]) (hparent pb pa)

theorem Acyclic_head (parentgame : GameData) (rest : List GameData)
    (h : Acyclic (parentgame :: rest)) :
    ∀ before after,
      findInherit parentgame.Properties ≠
        some (before, ValueType.string parentgame.Name, after) := by
  intro b a hf
  have hp := (findInherit_some _ _ _ _ hf).1
  exact h parentgame.Name (Relation.TransGen.single
    ⟨parentgame, by simp, rfl, ("Inherit", ValueType.string parentgame.Name),
      by rw [hp]; simp, rfl, rfl⟩)

theorem ResolveTerminates_of_acyclic (Configs : List GameData) (target : Nat)
    (hacyclic : Acyclic Configs) (htarget : target < Configs.length) :
    ResolveTerminates Configs target := by
  cases Configs with
  | nil => simp at htarget
  | cons g0 rest =>
    cases target with
    | zero => exact ResolveTerminates_first _ (g0 :: rest) g0 (by simp) rfl
    | succ k =>
      have hk : k < rest.length := by simpa using htarget
      exact ResolveTerminates_later g0 k (Acyclic_head g0 rest hacyclic) _ rest rest[k]
        (by simp [hk]) rfl

theorem exampleConfigs_acyclic : Acyclic [exampleParent, exampleChild] := by
  have href : ∀ X Y, InheritRef [exampleParent, exampleChild] X Y → X = "T" ∧ Y = "P" := by
    rintro X Y ⟨game, hgame, hname, p, hp, hp1, hp2⟩
    simp only [List.mem_cons, List.mem_singleton, List.not_mem_nil, or_false] at hgame
    rcases hgame with rfl | rfl
    · simp only [exampleParent, List.mem_cons, List.mem_singleton, List.not_mem_nil,
        or_false] at hp
      rcases hp with rfl | rfl <;> simp at hp1
    · simp only [exampleChild, List.mem_cons, List.mem_singleton, List.not_mem_nil,
        or_false] at hp
      rcases hp with rfl | rfl | rfl
      · simp at hp1
      · simp only [ValueType.string.injEq] at hp2
        exact ⟨hname.symm, hp2.symm⟩
      · simp at hp1
  have htrans : ∀ X Y, Relation.TransGen (InheritRef [exampleParent, exampleChild]) X Y →
      X = "T" ∧ Y = "P" := by
    intro X Y h
    induction h with
    | single h1 => exact href _ _ h1
    | tail _ h2 ih =>
      have h3 := href _ _ h2
      rw [ih.2] at h3
      exact absurd h3.1 (by decide)
  intro X hX
  have h := htrans X X hX
  rw [h.1] at h
  exact absurd h.2 (by decide)

/-- C20. In a loaded set in which following string-valued `Inherit` references
from a title never leads back to that title, the recursion of `ResolveInherit`
ends for every target entry: some fuel, and every larger one, yields one
result, which is a normal return or the status `InheritTargetWrong`. -/
theorem ResolveInherit_terminates_acyclic (Configs : List GameData) (target : Nat)
    (hacyclic : Acyclic Configs) (htarget : target < Configs.length) :
    ∃ fuel r, (∀ k, ResolveInherit (fuel + k) Configs target = some r) ∧
      (r.thrown = none ∨ r.thrown = some Status.InheritTargetWrong) := by
  obtain ⟨fuel, r, hr, hok⟩ := ResolveTerminates_of_acyclic Configs target hacyclic htarget
  exact ⟨fuel, r, ResolveInherit_fuel_add fuel Configs target r hr, hok⟩

/-- Witness of C20: the set `[P, T]`, in which only `T` refers to `P`. -/
theorem ResolveInherit_terminates_acyclic_witness :
    (Acyclic [exampleParent, exampleChild] ∧ 1 < [exampleParent, exampleChild].length) ∧
    ∃ fuel r, (∀ k, ResolveInherit (fuel + k) [exampleParent, exampleChild] 1 = some r) ∧
      (r.thrown = none ∨ r.thrown = some Status.InheritTargetWrong) :=
  ⟨⟨exampleConfigs_acyclic, by decide⟩,
    ResolveInherit_terminates_acyclic [exampleParent, exampleChild] 1 exampleConfigs_acyclic
      (by decide)⟩

end Config

end SDR
